import Mathlib

/-!
Verification development for the CadViser part-segmentation and interaction
subsystem.  The definitions below are a shallow embedding of the two core
source files:

* `part-analyzer.js` (class `PartAnalyzer`): a single-pass OBJ text parser
  producing a list of parts with bounding boxes.  JS numbers are modelled as
  exact rationals (`ℚ`); `parseFloat`/`parseInt` are modelled on the decimal
  fragment they accept on parser tokens (`NaN` becomes `none`; the `Infinity`
  literal and hexadecimal `parseInt` prefixes are outside the model).
  Console logging has no state effect and is dropped.

* `part-manager.js` (class `PartManager`): the part registry and
  section-mode state machine.  JS `Map`/`Set` objects are modelled as
  insertion-ordered association lists / lists; rendering materials are
  modelled by identity (`MatId`) with the length of their `clippingPlanes`
  array tracked per material object, which captures the aliasing of the
  shared highlight materials.  DOM access, video playback, Three.js scene
  graph children (glow meshes, sprites' textures) and the geometric
  position of the section plane are rendering-engine effects outside the
  registry state and are not modelled; every field of the registry state
  that the operations read or write is.
-/

/-! ### Association-list and set helpers (JS `Map` / `Set` semantics) -/

def aget {κ α : Type} [DecidableEq κ] (k : κ) : List (κ × α) → Option α
  | [] => none
  | p :: t => if p.1 = k then some p.2 else aget k t

def aupd {κ α : Type} [DecidableEq κ] (k : κ) (f : α → α) (l : List (κ × α)) :
    List (κ × α) :=
  l.map (fun p => if p.1 = k then (p.1, f p.2) else p)

def ahas {κ α : Type} [DecidableEq κ] (k : κ) (l : List (κ × α)) : Bool :=
  (aget k l).isSome

/-- `Map.set`: replace in place if the key is present, else append. -/
def aset {κ α : Type} [DecidableEq κ] (k : κ) (v : α) (l : List (κ × α)) :
    List (κ × α) :=
  if ahas k l then aupd k (fun _ => v) l else l ++ [(k, v)]

/-- `Map.delete`. -/
def adel {κ α : Type} [DecidableEq κ] (k : κ) (l : List (κ × α)) : List (κ × α) :=
  l.filter (fun p => !decide (p.1 = k))

/-- `Set.add`. -/
def sadd {κ : Type} [DecidableEq κ] (x : κ) (l : List κ) : List κ :=
  if x ∈ l then l else l ++ [x]

/-- `Set.delete`. -/
def sdel {κ : Type} [DecidableEq κ] (x : κ) (l : List κ) : List κ :=
  l.erase x

/-! ### JS string/number primitives used by the parser

The JS string operations are re-implemented structurally over `List Char`
(wrapped back into `String`) and JS float arithmetic is performed through
`mkRat`, so that every parser run reduces inside the Lean kernel. -/

/-- `String.prototype.split(c)` for a single-character separator (used for
`'\n'` and `'/'`): keeps empty pieces, like JS. -/
def splitCharAux (c : Char) : List Char → List Char → List (List Char)
  | [], acc => [acc.reverse]
  | x :: t, acc =>
    if x = c then acc.reverse :: splitCharAux c t []
    else splitCharAux c t (x :: acc)

def jsSplitChar (c : Char) (s : String) : List String :=
  (splitCharAux c s.data []).map String.mk

/-- `String.prototype.trim` (on the ASCII whitespace the model covers). -/
def jsTrim (s : String) : String :=
  String.mk (((s.data.dropWhile Char.isWhitespace).reverse.dropWhile Char.isWhitespace).reverse)

/-- `trimmedLine.split(/\s+/)` on an already trimmed line: split on runs of
whitespace, dropping empty pieces. -/
def splitWs (s : String) : List String :=
  ((splitCharAux ' ' (s.data.map (fun c => if c.isWhitespace then ' ' else c)) []).filter
    (fun t => !decide (t = []))).map String.mk

/-- `String.prototype.startsWith('#')`. -/
def startsHash (s : String) : Bool :=
  match s.data with
  | c :: _ => c = '#'
  | [] => false

/-- `Array.prototype.join(' ')`. -/
def joinSpace : List String → String
  | [] => ""
  | [x] => x
  | x :: t => x ++ " " ++ joinSpace t

/-- `String.prototype.toLowerCase` (ASCII range). -/
def jsToLower (s : String) : String :=
  String.mk (s.data.map Char.toLower)

def leadsWith : List Char → List Char → Bool
  | [], _ => true
  | _ :: _, [] => false
  | a :: as, b :: bs => a = b && leadsWith as bs

def hasSub (sub : List Char) : List Char → Bool
  | [] => leadsWith sub []
  | c :: t => leadsWith sub (c :: t) || hasSub sub t

def digitsToNat (ds : List Char) : Nat :=
  ds.foldl (fun a c => a * 10 + (c.toNat - 48)) 0

/-! Kernel-computable rational arithmetic.  Batteries marks `Rat.add` /
`Rat.sub` `@[irreducible]`, so the embedding computes through `mkRat`; the
lemmas `qadd_eq` / `qsub_eq` identify these with the ordinary `ℚ`
operations. -/

def qadd (a b : ℚ) : ℚ := mkRat (a.num * b.den + b.num * a.den) (a.den * b.den)

def qsub (a b : ℚ) : ℚ := mkRat (a.num * b.den - b.num * a.den) (a.den * b.den)

def qhalf (a : ℚ) : ℚ := mkRat a.num (2 * a.den)

/-- JS `parseFloat` on the decimal fragment: optional sign, digits, optional
fractional part, optional exponent; longest valid numeric prefix; `none` for
`NaN`.  (The `Infinity` literal is not representable in `ℚ` and is outside
the model.) -/
def jsParseFloat (s : String) : Option ℚ :=
  let cs := s.toList
  let signed : Bool × List Char :=
    match cs with
    | '-' :: t => (true, t)
    | '+' :: t => (false, t)
    | _ => (false, cs)
  let ds := signed.2.takeWhile Char.isDigit
  let rest1 := signed.2.dropWhile Char.isDigit
  let fracRest : List Char × List Char :=
    match rest1 with
    | '.' :: t => (t.takeWhile Char.isDigit, t.dropWhile Char.isDigit)
    | _ => ([], rest1)
  let fs := fracRest.1
  if ds = [] ∧ fs = [] then none
  else
    let expPart : Int :=
      match fracRest.2 with
      | 'e' :: t | 'E' :: t =>
        let esigned : Bool × List Char :=
          match t with
          | '-' :: u => (true, u)
          | '+' :: u => (false, u)
          | _ => (false, t)
        let eds := esigned.2.takeWhile Char.isDigit
        if eds = [] then 0
        else if esigned.1 then -(digitsToNat eds : Int) else (digitsToNat eds : Int)
      | _ => 0
    let base : Int := (digitsToNat ds * 10 ^ fs.length + digitsToNat fs : Nat)
    let e : Int := expPart - fs.length
    let m : ℚ :=
      if 0 ≤ e then mkRat (base * 10 ^ e.toNat) 1
      else mkRat base (10 ^ (-e).toNat)
    some (if signed.1 then mkRat (-m.num) m.den else m)

/-- JS `parseInt` with no radix argument on the decimal fragment: optional
sign then a nonempty decimal-digit prefix; `none` for `NaN`.  (The `0x` hex
prefix is outside the model.) -/
def jsParseInt (s : String) : Option Int :=
  let cs := s.toList
  let signed : Bool × List Char :=
    match cs with
    | '-' :: t => (true, t)
    | '+' :: t => (false, t)
    | _ => (false, cs)
  let ds := signed.2.takeWhile Char.isDigit
  if ds = [] then none
  else some (if signed.1 then -(digitsToNat ds : Int) else (digitsToNat ds : Int))

/-- JS `String.prototype.includes` for nonempty needles. -/
def jsIncludes (s sub : String) : Bool :=
  hasSub sub.data s.data

/-! ### PartAnalyzer: data model -/

structure Vec3 where
  x : ℚ
  y : ℚ
  z : ℚ
deriving DecidableEq, Repr

structure Vec2 where
  u : ℚ
  v : ℚ
deriving DecidableEq, Repr

structure BBox where
  min : Vec3
  max : Vec3
deriving DecidableEq, Repr

/-- One `vertexIndex[/textureIndex][/normalIndex]` face entry.  The stored
`vertexIndex` is already 0-based.  For the optional indices, `some n` is the
stored JS number and `none` stands for JS `NaN` (unparseable token). -/
structure FaceVertex where
  vertexIndex : Int
  textureIndex : Option Int
  normalIndex : Option Int
deriving DecidableEq, Repr

structure ObjPart where
  name : String
  vertices : List Vec3
  normals : List Vec3
  textureCoords : List Vec2
  faces : List (List FaceVertex)
  material : Option String
  boundingBox : Option BBox
  center : Option Vec3
  size : Option Vec3
  partNumber : String
  type : String
deriving DecidableEq, Repr

structure AState where
  parts : List ObjPart
  currentPart : Option ObjPart
deriving DecidableEq, Repr

/-! ### PartAnalyzer: operations -/

def detectPartType (name : String) : String :=
  if name = "" then "Unknown"
  else
    let lowerName := jsToLower name
    if jsIncludes lowerName "pipe" || jsIncludes lowerName "tube" then "Pipe"
    else if jsIncludes lowerName "flange" then "Flange"
    else if jsIncludes lowerName "elbow" || jsIncludes lowerName "bend" then "Elbow"
    else if jsIncludes lowerName "tee" || jsIncludes lowerName "t-joint" then "Tee"
    else if jsIncludes lowerName "valve" then "Valve"
    else if jsIncludes lowerName "fitting" then "Fitting"
    else if jsIncludes lowerName "support" || jsIncludes lowerName "bracket" then "Support"
    else if jsIncludes lowerName "gasket" || jsIncludes lowerName "seal" then "Gasket"
    else if jsIncludes lowerName "bolt" || jsIncludes lowerName "screw" then "Fastener"
    else if jsIncludes lowerName "nut" then "Nut"
    else "Component"

/-- `(this.parts.length + 1).toString().padStart(3, '0')` prefixed with `P-`;
the argument is `this.parts.length` at call time. -/
def generatePartNumber (partsLen : Nat) : String :=
  let s := toString (partsLen + 1)
  "P-" ++ (if s.length < 3 then String.mk (List.replicate (3 - s.length) '0') ++ s else s)

def calculateBoundingBox (p : ObjPart) : ObjPart :=
  match p.vertices with
  | [] => p
  | v0 :: vs =>
    let mn := vs.foldl (fun a v => ⟨min a.x v.x, min a.y v.y, min a.z v.z⟩) v0
    let mx := vs.foldl (fun a v => ⟨max a.x v.x, max a.y v.y, max a.z v.z⟩) v0
    { p with
      boundingBox := some ⟨mn, mx⟩
      center := some ⟨qhalf (qadd mn.x mx.x), qhalf (qadd mn.y mx.y), qhalf (qadd mn.z mx.z)⟩
      size := some ⟨qsub mx.x mn.x, qsub mx.y mn.y, qsub mx.z mn.z⟩ }

def validatePart (p : ObjPart) : Bool :=
  decide (0 < p.vertices.length) && decide (0 < p.faces.length) &&
    p.boundingBox.isSome &&
    (match p.size with
     | some sz => decide (0 < sz.x) && decide (0 < sz.y) && decide (0 < sz.z)
     | none => false)

def finalizePart (s : AState) : AState :=
  match s.currentPart with
  | none => s
  | some c =>
    if c.vertices.length = 0 then s
    else
      let c1 := calculateBoundingBox c
      if validatePart c1 then { parts := s.parts ++ [c1], currentPart := none }
      else { parts := s.parts, currentPart := none }

def handleObjectName (name : String) (s : AState) : AState :=
  let s1 := if s.currentPart.isSome then finalizePart s else s
  { s1 with
    currentPart := some
      { name := if name = "" then "Part_" ++ toString (s1.parts.length + 1) else name
        vertices := [], normals := [], textureCoords := [], faces := []
        material := none, boundingBox := none, center := none, size := none
        partNumber := generatePartNumber s1.parts.length
        type := detectPartType name } }

def handleGroupName (name : String) (s : AState) : AState :=
  match s.currentPart with
  | none => handleObjectName name s
  | some c =>
    if name ≠ "" ∧ name ≠ c.name then handleObjectName name (finalizePart s)
    else s

def handleMaterialUsage (tok : Option String) (s : AState) : AState :=
  match s.currentPart with
  | none => s
  | some c =>
    { s with
      currentPart := some
        { c with material := some (match tok with
            | some m => if m = "" then "default" else m
            | none => "default") } }

def handleVertex (coords : List String) (s : AState) : AState :=
  match s.currentPart with
  | none => s
  | some c =>
    if 3 ≤ coords.length then
      match coords.mapM jsParseFloat with
      | some (x :: y :: z :: _) =>
        { s with currentPart := some { c with vertices := c.vertices ++ [⟨x, y, z⟩] } }
      | _ => s
    else s

def handleNormal (coords : List String) (s : AState) : AState :=
  match s.currentPart with
  | none => s
  | some c =>
    if 3 ≤ coords.length then
      match coords.mapM jsParseFloat with
      | some (x :: y :: z :: _) =>
        { s with currentPart := some { c with normals := c.normals ++ [⟨x, y, z⟩] } }
      | _ => s
    else s

def handleTextureCoord (coords : List String) (s : AState) : AState :=
  match s.currentPart with
  | none => s
  | some c =>
    if 2 ≤ coords.length then
      match coords.mapM jsParseFloat with
      | some (u :: v :: _) =>
        { s with currentPart := some { c with textureCoords := c.textureCoords ++ [⟨u, v⟩] } }
      | _ => s
    else s

def parseFaceVertex (tok : String) : Option FaceVertex :=
  let indices := jsSplitChar '/' tok
  match indices.head? with
  | none => none
  | some i0 =>
    match jsParseInt i0 with
    | none => none
    | some vi =>
      if vi < 1 then none
      else
        some
          { vertexIndex := vi - 1
            textureIndex :=
              match indices[1]? with
              | some t => if t = "" then some (-1) else (jsParseInt t).map (fun n => n - 1)
              | none => some (-1)
            normalIndex :=
              match indices[2]? with
              | some t => if t = "" then some (-1) else (jsParseInt t).map (fun n => n - 1)
              | none => some (-1) }

def handleFace (faceData : List String) (s : AState) : AState :=
  match s.currentPart with
  | none => s
  | some c =>
    if 3 ≤ faceData.length then
      match faceData.mapM parseFaceVertex with
      | some face => { s with currentPart := some { c with faces := c.faces ++ [face] } }
      | none => s
    else s

/-- Dispatch on the first token of a non-blank, non-comment line, per the
`switch (command)` of `analyzeOBJ`; `mtllib` only logs and unknown commands
are silently ignored. -/
def processLine (s : AState) (line : String) : AState :=
  let t := jsTrim line
  if t = "" || startsHash t then s
  else
    match splitWs t with
    | [] => s
    | cmd :: rest =>
      if cmd = "o" then handleObjectName (joinSpace rest) s
      else if cmd = "g" then handleGroupName (joinSpace rest) s
      else if cmd = "usemtl" then handleMaterialUsage rest.head? s
      else if cmd = "v" then handleVertex rest s
      else if cmd = "vn" then handleNormal rest s
      else if cmd = "vt" then handleTextureCoord rest s
      else if cmd = "f" then handleFace rest s
      else s

def initAState : AState := { parts := [], currentPart := none }

def runAnalyze (content : String) : List ObjPart :=
  let s := (jsSplitChar '\n' content).foldl processLine initAState
  let s2 := if s.currentPart.isSome then finalizePart s else s
  s2.parts

/-- The `analyzeOBJ(objContent)` argument: a JS value that is either a string
or some non-string value (`null`, `undefined`, a number, an object, …). -/
inductive ObjInput where
  | str (s : String)
  | nonString
deriving DecidableEq, Repr

/-- `analyzeOBJ`: the guard `!objContent || typeof objContent !== 'string'`
returns `[]` for every non-string value and for the empty string (the only
falsy string). -/
def analyzeOBJ : ObjInput → List ObjPart
  | .nonString => []
  | .str s => if s = "" then [] else runAnalyze s

/-! ### PartManager: data model

The registry state of `part-manager.js`.  Rendering materials are modelled
by object identity: each part's mesh starts with its own loaded material
(`initialMat`), `addPart` stores a fresh clone (`cloneMat`) in
`originalMaterials`, and the two highlight materials (`highlightMaterial`,
`highlight2Material`) are single shared objects.  The only observable
mutable content of a material that the registry code reads or writes is the
length of its `clippingPlanes` array, tracked in `clipPlanes` (a missing
entry stands for an absent/empty array). -/

inductive MatId where
  | initialMat (partId : String)
  | cloneMat (partId : String)
  | green
  | orange
deriving DecidableEq, Repr

structure Mesh where
  visible : Bool
  material : MatId
deriving DecidableEq, Repr

/-- The runtime overlay state `addPart` spreads onto the part data; the
geometric payload (vertices, …) is irrelevant to every registry operation
and is represented by the part's display name. -/
structure MPart where
  name : String
  originalVisible : Bool
  isSelected : Bool
  isHighlighted : Bool
  isHidden : Bool
deriving DecidableEq, Repr

/-- The `sectionPlane` object: the fields of its `userData` that the code
reads back, plus the slider position (its geometric placement is a
rendering-engine effect that no registry operation reads). -/
structure SPlane where
  planeType : String
  position : ℚ
deriving DecidableEq, Repr

structure PMState where
  parts : List (String × MPart)
  partMeshes : List (String × Mesh)
  partLabels : List (String × Bool)
  selectedPart : Option String
  visibleParts : List String
  highlightedParts : List String
  sectionPlanes : List (String × SPlane)
  crossSections : List String
  cuttingPlaneVisuals : List (String × Bool)
  sectionedPartId : Option String
  showCuttingPlane : Bool
  preIsolationState : Option (List (String × Bool))
  originalMaterials : List (String × MatId)
  clipPlanes : List (MatId × Nat)
  localClippingEnabled : Bool
deriving DecidableEq, Repr

/-- The constructor state of `PartManager`. -/
def pmInit : PMState :=
  { parts := [], partMeshes := [], partLabels := [], selectedPart := none
    visibleParts := [], highlightedParts := [], sectionPlanes := []
    crossSections := [], cuttingPlaneVisuals := [], sectionedPartId := none
    showCuttingPlane := true, preIsolationState := none
    originalMaterials := [], clipPlanes := [], localClippingEnabled := false }

/-! ### PartManager: operations -/

def addPart (partNumber name : String) (mesh : Mesh) (s : PMState) : PMState :=
  { s with
    parts := aset partNumber
      { name := name, originalVisible := true, isSelected := false
        isHighlighted := false, isHidden := false } s.parts
    partMeshes := aset partNumber mesh s.partMeshes
    visibleParts := sadd partNumber s.visibleParts
    originalMaterials := aset partNumber (MatId.cloneMat partNumber) s.originalMaterials
    partLabels := aset partNumber true s.partLabels }

def isInSectioningMode (s : PMState) : Bool :=
  s.sectionedPartId.isSome

def maintainSectioningIsolation (s : PMState) : PMState :=
  match s.sectionedPartId with
  | some sid =>
    { s with partMeshes := s.partMeshes.map (fun p => (p.1, { p.2 with visible := p.1 = sid })) }
  | none => s

def forceSectioningMode (partId : String) (s : PMState) : PMState :=
  maintainSectioningIsolation { s with sectionedPartId := some partId }

/-- The per-frame `update()` tick.  The `BULLETPROOF` branch re-forces
sectioning mode when `sectionedPartId` is truthy but `isInSectioningMode()`
is false; with `sectionedPartId : Option String` that guard can never fire,
but it is carried over faithfully. -/
def update (s : PMState) : PMState :=
  let s1 := maintainSectioningIsolation s
  match s1.sectionedPartId with
  | some pid => if pid ≠ "" ∧ ¬ isInSectioningMode s1 then forceSectioningMode pid s1 else s1
  | none => s1

def highlightPart (partId : String) (s : PMState) : PMState :=
  match aget partId s.parts, aget partId s.partMeshes with
  | some part, some _ =>
    if !part.isHighlighted then
      { s with
        parts := aupd partId (fun p => { p with isHighlighted := true }) s.parts
        highlightedParts := sadd partId s.highlightedParts
        partMeshes := aupd partId (fun m => { m with material := MatId.green }) s.partMeshes }
    else s
  | _, _ => s

def removeHighlight (partId : String) (s : PMState) : PMState :=
  match aget partId s.parts, aget partId s.partMeshes with
  | some part, some _ =>
    if part.isHighlighted then
      { s with
        parts := aupd partId (fun p => { p with isHighlighted := false }) s.parts
        highlightedParts := sdel partId s.highlightedParts
        partMeshes :=
          match aget partId s.originalMaterials with
          | some om => aupd partId (fun m => { m with material := om }) s.partMeshes
          | none => s.partMeshes }
    else s
  | _, _ => s

def switchToOrangeHighlight (partId : String) (s : PMState) : PMState :=
  match aget partId s.parts, aget partId s.partMeshes with
  | some part, some _ =>
    if part.isHighlighted then
      { s with partMeshes := aupd partId (fun m => { m with material := MatId.orange }) s.partMeshes }
    else s
  | _, _ => s

def switchToGreenHighlight (partId : String) (s : PMState) : PMState :=
  match aget partId s.parts, aget partId s.partMeshes with
  | some part, some _ =>
    if part.isHighlighted then
      { s with partMeshes := aupd partId (fun m => { m with material := MatId.green }) s.partMeshes }
    else s
  | _, _ => s

def deselectPart (partId : String) (s : PMState) : PMState :=
  let s1 :=
    match aget partId s.parts with
    | some _ =>
      removeHighlight partId
        { s with parts := aupd partId (fun p => { p with isSelected := false }) s.parts }
    | none => s
  maintainSectioningIsolation s1

def selectPart (partId : String) (s : PMState) : PMState :=
  let s1 :=
    match s.selectedPart with
    | some prev => if prev ≠ "" ∧ prev ≠ partId then deselectPart prev s else s
    | none => s
  let s2 := { s1 with selectedPart := some partId }
  let s3 :=
    match aget partId s2.parts with
    | some _ =>
      highlightPart partId
        { s2 with parts := aupd partId (fun p => { p with isSelected := true }) s2.parts }
    | none => s2
  maintainSectioningIsolation s3

def deselectAllParts (s : PMState) : PMState :=
  let s1 :=
    match s.selectedPart with
    | some sel =>
      if sel ≠ "" then { (deselectPart sel s) with selectedPart := none } else s
    | none => s
  maintainSectioningIsolation s1

def hidePart (partId : String) (s : PMState) : PMState :=
  match aget partId s.parts, aget partId s.partMeshes with
  | some _, some _ =>
    { s with
      parts := aupd partId (fun p => { p with isHidden := true }) s.parts
      partMeshes := aupd partId (fun m => { m with visible := false }) s.partMeshes
      visibleParts := sdel partId s.visibleParts
      partLabels := aupd partId (fun _ => false) s.partLabels }
  | _, _ => s

def showPart (partId : String) (s : PMState) : PMState :=
  match aget partId s.parts, aget partId s.partMeshes with
  | some _, some _ =>
    { s with
      parts := aupd partId (fun p => { p with isHidden := false }) s.parts
      partMeshes := aupd partId (fun m => { m with visible := true }) s.partMeshes
      visibleParts := sadd partId s.visibleParts
      partLabels := aupd partId (fun _ => true) s.partLabels }
  | _, _ => s

def togglePartVisibility (partId : String) (s : PMState) : PMState :=
  match aget partId s.parts with
  | some part => if part.isHidden then showPart partId s else hidePart partId s
  | none => s

def isolatePart (partId : String) (s : PMState) : PMState :=
  let snap := s.parts.map (fun p => (p.1, p.2.isHidden))
  let s1 := { s with preIsolationState := some snap }
  (s.parts.map Prod.fst).foldl
    (fun st id => if id ≠ partId then hidePart id st else showPart id st) s1

def showAllParts (s : PMState) : PMState :=
  match s.preIsolationState with
  | some snap =>
    snap.foldl (fun st pr => if pr.2 then hidePart pr.1 st else showPart pr.1 st) s
  | none =>
    (s.parts.map Prod.fst).foldl (fun st id => showPart id st) s

/-- Number of clipping planes on a material object (an absent entry is an
absent/empty `clippingPlanes` array). -/
def clipCount (s : PMState) (m : MatId) : Nat :=
  (aget m s.clipPlanes).getD 0

/-- `addClippingPlane(mesh, sectionPlane)` together with the
`createCrossSectionMaterial` and `createCuttingPlaneVisualization` calls it
makes; the pushed plane's geometry is rendering-engine data, its presence is
what the registry reads back. -/
def addClippingPlane (partId : String) (s : PMState) : PMState :=
  match aget partId s.partMeshes with
  | some mesh =>
    { s with
      clipPlanes := aset mesh.material (clipCount s mesh.material + 1) s.clipPlanes
      localClippingEnabled := true
      crossSections := sadd partId s.crossSections
      cuttingPlaneVisuals := aset partId s.showCuttingPlane s.cuttingPlaneVisuals }
  | none => s

def removeSectionPlane (partId : String) (s : PMState) : PMState :=
  let s1 :=
    match aget partId s.sectionPlanes with
    | some _ =>
      let sa :=
        match aget partId s.partMeshes with
        | some mesh => { s with clipPlanes := aset mesh.material 0 s.clipPlanes }
        | none => s
      { sa with sectionPlanes := adel partId sa.sectionPlanes }
    | none => s
  let s2 :=
    if partId ∈ s1.crossSections then { s1 with crossSections := sdel partId s1.crossSections }
    else s1
  let s3 :=
    match aget partId s2.cuttingPlaneVisuals with
    | some _ => { s2 with cuttingPlaneVisuals := adel partId s2.cuttingPlaneVisuals }
    | none => s2
  let s4 :=
    { s3 with
      partMeshes := s3.partMeshes.map (fun p : String × Mesh => (p.1, { p.2 with visible := true })) }
  let s5 := { s4 with sectionedPartId := none }
  if s5.selectedPart = some partId then switchToGreenHighlight partId s5 else s5

def createSectionPlane (partId : String) (planeType : String) (position : ℚ)
    (s : PMState) : PMState :=
  match aget partId s.parts, aget partId s.partMeshes with
  | some _, some _ =>
    let s1 := removeSectionPlane partId s
    let s2 :=
      { s1 with
        partMeshes := s1.partMeshes.map
          (fun p : String × Mesh =>
            (p.1, if p.1 ≠ partId then { p.2 with visible := false } else p.2)) }
    let s3 := forceSectioningMode partId s2
    let s4 := { s3 with sectionPlanes := aset partId ⟨planeType, position⟩ s3.sectionPlanes }
    let s5 := switchToOrangeHighlight partId s4
    addClippingPlane partId s5
  | _, _ => s

/-! ### Registry mutations quantified over by the temporal claims -/

inductive RegOp where
  | selectOp (id : String)
  | deselectOp (id : String)
  | deselectAllOp
  | hideOp (id : String)
  | showOp (id : String)
  | toggleOp (id : String)
  | isolateOp (id : String)
  | showAllOp
  | highlightOp (id : String)
  | unhighlightOp (id : String)
deriving DecidableEq, Repr

def applyOp : RegOp → PMState → PMState
  | .selectOp id, s => selectPart id s
  | .deselectOp id, s => deselectPart id s
  | .deselectAllOp, s => deselectAllParts s
  | .hideOp id, s => hidePart id s
  | .showOp id, s => showPart id s
  | .toggleOp id, s => togglePartVisibility id s
  | .isolateOp id, s => isolatePart id s
  | .showAllOp, s => showAllParts s
  | .highlightOp id, s => highlightPart id s
  | .unhighlightOp id, s => removeHighlight id s

/-- A step between two render callbacks: a registry mutation or a
per-frame `update()` tick. -/
inductive Step where
  | op (o : RegOp)
  | tick
deriving DecidableEq, Repr

def applyStep : Step → PMState → PMState
  | .op o, s => applyOp o s
  | .tick, s => update s

def applySteps (steps : List Step) (s : PMState) : PMState :=
  steps.foldl (fun st stp => applyStep stp st) s

/-! ### Association-list lemmas -/

def wit9 : AState := handleObjectName "A" initAState

def wit9c : ObjPart :=
  { name := "A", vertices := [], normals := [], textureCoords := [], faces := []
    material := none, boundingBox := none, center := none, size := none
    partNumber := "P-001", type := "Component" }

def c2state : PMState :=
  addPart "P-002" "B" { visible := true, material := MatId.initialMat "P-002" }
    (addPart "P-001" "A" { visible := true, material := MatId.initialMat "P-001" } pmInit)

def c3state : PMState :=
  addPart "P-001" "A" { visible := true, material := MatId.initialMat "P-001" } pmInit

/-- Numbering invariant of the parse state: the already accepted parts are
numbered `P-001`, `P-002`, … in order, and an open part carries the number
generated from the count of parts accepted when it was opened — which is
still the current count, since the count only grows when the open part is
finalized. -/
def NumInv (s : AState) : Prop :=
  s.parts.map ObjPart.partNumber = (List.range s.parts.length).map generatePartNumber ∧
  ∀ c, s.currentPart = some c → c.partNumber = generatePartNumber s.parts.length

def GoodPart (p : ObjPart) : Prop :=
  0 < p.vertices.length ∧ 0 < p.faces.length ∧
    ∃ sz, p.size = some sz ∧ 0 < sz.x ∧ 0 < sz.y ∧ 0 < sz.z

def GoodParts (s : AState) : Prop := ∀ p ∈ s.parts, GoodPart p

def wit5 : ObjPart :=
  { name := "A"
    vertices := [⟨0, 0, 0⟩, ⟨1, 1, 1⟩]
    normals := [], textureCoords := []
    faces := [[⟨0, some (-1), some (-1)⟩, ⟨1, some (-1), some (-1)⟩, ⟨1, some (-1), some (-1)⟩]]
    material := none
    boundingBox := some ⟨⟨0, 0, 0⟩, ⟨1, 1, 1⟩⟩
    center := some ⟨mkRat 1 2, mkRat 1 2, mkRat 1 2⟩
    size := some ⟨1, 1, 1⟩
    partNumber := "P-001", type := "Component" }

/-- Well-formedness of one face line at the state it is processed in: if the
line would record a face on the open part, every recorded 0-based vertex
index must be below the part's current vertex count. -/
def faceLineOk (rest : List String) (s : AState) : Bool :=
  match s.currentPart with
  | some c =>
    if 3 ≤ rest.length then
      match rest.mapM parseFaceVertex with
      | some face =>
        face.all (fun fv => decide (fv.vertexIndex < (c.vertices.length : Int)))
      | none => true
    else true
  | none => true

def lineFaceOk (s : AState) (line : String) : Bool :=
  let t := jsTrim line
  if t = "" || startsHash t then true
  else
    match splitWs t with
    | [] => true
    | cmd :: rest => if cmd = "f" then faceLineOk rest s else true

def checkedFold : List String → AState × Bool → AState × Bool
  | [], sb => sb
  | l :: t, sb => checkedFold t (processLine sb.1 l, sb.2 && lineFaceOk sb.1 l)

/-- Well-formedness of a whole OBJ input: every face line references only
vertices already declared for the part open at that point. -/
def inputFacesOk (input : String) : Bool :=
  (checkedFold (jsSplitChar '\n' input) (initAState, true)).2

/-- Bounded faces of a single part record. -/
def FB (p : ObjPart) : Prop :=
  ∀ f ∈ p.faces, ∀ fv ∈ f, 0 ≤ fv.vertexIndex ∧ fv.vertexIndex < (p.vertices.length : Int)

def FInv (s : AState) : Prop :=
  (∀ p ∈ s.parts, FB p) ∧ ∀ c, s.currentPart = some c → FB c

def FrameEq (s t : PMState) : Prop :=
  t.sectionedPartId = s.sectionedPartId ∧
  t.parts.map Prod.fst = s.parts.map Prod.fst ∧
  t.partMeshes.map Prod.fst = s.partMeshes.map Prod.fst

def wit1 : PMState :=
  createSectionPlane "P-001" "XY" (mkRat 0 1)
    (addPart "P-002" "B" { visible := true, material := MatId.initialMat "P-002" }
      (addPart "P-001" "A" { visible := true, material := MatId.initialMat "P-001" } pmInit))

def applyOps (ops : List RegOp) (s : PMState) : PMState :=
  ops.foldl (fun st op => applyOp op st) s

/-- The lock-step check: every registered part whose id has a mesh satisfies
`mesh.visible = !part.isHidden`. -/
def lockStepB (s : PMState) : Bool :=
  s.parts.all (fun pr =>
    match aget pr.1 s.partMeshes with
    | some m => m.visible == !pr.2.isHidden
    | none => true)

def c8state : PMState :=
  addPart "P-002" "B" { visible := true, material := MatId.initialMat "P-002" }
    (addPart "P-001" "A" { visible := true, material := MatId.initialMat "P-001" } pmInit)

def wit7 : PMState :=
  hidePart "P-002"
    (addPart "P-002" "B" { visible := true, material := MatId.initialMat "P-002" }
      (addPart "P-001" "A" { visible := true, material := MatId.initialMat "P-001" } pmInit))

def wit7post : MPart :=
  { name := "B", originalVisible := true, isSelected := false
    isHighlighted := false, isHidden := true }

theorem qadd_eq (a b : ℚ) : qadd a b = a + b := (Rat.add_def' a b).symm

theorem qsub_eq (a b : ℚ) : qsub a b = a - b := (Rat.sub_def' a b).symm

theorem aget_aupd {κ α : Type} [DecidableEq κ] (k k' : κ) (f : α → α)
    (l : List (κ × α)) :
    aget k' (aupd k f l) = if k' = k then (aget k l).map f else aget k' l := by
  induction l with
  | nil => simp [aget, aupd]
  | cons p t ih =>
    by_cases h1 : p.1 = k
    · by_cases h2 : p.1 = k'
      · simp [aget, aupd, h1, h2, h2 ▸ h1]
      · have hne : ¬ k' = k := fun e => h2 (h1.trans e.symm)
        have hne2 : ¬ k = k' := fun e => hne e.symm
        simp only [aupd, List.map] at ih ⊢
        simp [aget, h1, h2, ih, hne, hne2]
    · by_cases h2 : p.1 = k'
      · have : ¬ k' = k := fun e => h1 (h2.trans e)
        simp [aget, aupd, h1, h2, this]
      · simp only [aupd, List.map] at ih ⊢
        simp [aget, h1, h2, ih]

theorem aupd_fst {κ α : Type} [DecidableEq κ] (k : κ) (f : α → α)
    (l : List (κ × α)) :
    (aupd k f l).map Prod.fst = l.map Prod.fst := by
  induction l with
  | nil => rfl
  | cons p t ih =>
    by_cases h : p.1 = k <;> simp [aupd, h] at ih ⊢ <;> exact ih

theorem aget_map_snd {κ α : Type} [DecidableEq κ] (k : κ) (g : κ → α → α)
    (l : List (κ × α)) :
    aget k (l.map (fun p => (p.1, g p.1 p.2))) = (aget k l).map (g k) := by
  induction l with
  | nil => rfl
  | cons p t ih =>
    by_cases h : p.1 = k
    · simp [aget, h]
    · simp [aget, h, ih]

theorem aget_isSome_iff {κ α : Type} [DecidableEq κ] (k : κ) (l : List (κ × α)) :
    (aget k l).isSome = true ↔ k ∈ l.map Prod.fst := by
  induction l with
  | nil => simp [aget]
  | cons p t ih =>
    by_cases h : p.1 = k
    · simp [aget, h]
    · simp [aget, h, ih, Ne.symm h]

theorem aget_mem {κ α : Type} [DecidableEq κ] {k : κ} {v : α} {l : List (κ × α)}
    (h : aget k l = some v) : (k, v) ∈ l := by
  induction l with
  | nil => simp [aget] at h
  | cons p t ih =>
    by_cases h1 : p.1 = k
    · simp [aget, h1] at h
      subst h1
      subst h
      exact List.mem_cons_self _ _
    · simp [aget, h1] at h
      exact List.mem_cons_of_mem _ (ih h)

/-! ### Claim C10: invalid `analyzeOBJ` input -/

/-- C10: for every input value that is not a non-empty string (a non-string
value such as `null` or `undefined`, or the empty string), `analyzeOBJ`
returns the empty sequence of parts and throws no error. -/
theorem spec_c10_invalid_input (v : ObjInput)
    (h : v = ObjInput.nonString ∨ v = ObjInput.str "") :
    analyzeOBJ v = [] := by
  rcases h with h | h <;> simp [h, analyzeOBJ]

theorem spec_c10_witness : analyzeOBJ (ObjInput.str "") = [] :=
  spec_c10_invalid_input (ObjInput.str "") (Or.inr rfl)

/-! ### Claim C9: `g` lines against the open part -/

/-- C9, counterexample: on
`"o A\nv 0 0 0\nv 1 1 1\nf 1 2 2\ng\nv 2 2 2"` the bare `g` line (empty
name) neither finalizes the open part `A` nor starts a new part: the vertex
on the following line still lands in `A`, which ends with 3 vertices.  Under
the claimed semantics the bare `g` would have finalized `A` at 2 vertices. -/
theorem spec_c9_counterexample :
    (analyzeOBJ (ObjInput.str "o A\nv 0 0 0\nv 1 1 1\nf 1 2 2\ng\nv 2 2 2")).map
      (fun p => (p.name, p.vertices.length)) = [("A", 3)] := by decide

theorem handleObjectName_finalizePart (name : String) (s : AState)
    (h : s.currentPart.isSome) :
    handleObjectName name (finalizePart s) = handleObjectName name s := by
  match hc : s.currentPart with
  | none => rw [hc] at h; simp at h
  | some c =>
    by_cases hv : c.vertices.length = 0
    · have he : finalizePart s = s := by simp [finalizePart, hc, hv]
      rw [he]
    · have he : (finalizePart s).currentPart = none := by
        simp only [finalizePart, hc]
        rw [if_neg hv]
        split <;> rfl
      simp [handleObjectName, he, h]

/-- C9, amended: with a part open, a `g` line whose name is empty or equals
the open part's name does nothing (no finalize, no new part); a `g` line
with a non-empty name different from the open part's name finalizes the open
part and starts a new one, exactly as an `o` line would. -/
theorem spec_c9_amended (s : AState) (c : ObjPart) (name : String)
    (hc : s.currentPart = some c) :
    ((name = "" ∨ name = c.name) → handleGroupName name s = s) ∧
    (name ≠ "" → name ≠ c.name → handleGroupName name s = handleObjectName name s) := by
  constructor
  · intro h
    rcases h with h | h <;> simp [handleGroupName, hc, h]
  · intro h1 h2
    simp only [handleGroupName, hc, if_pos (And.intro h1 h2)]
    exact handleObjectName_finalizePart name s (by simp [hc])

theorem spec_c9_witness :
    handleGroupName "" wit9 = wit9 ∧
    handleGroupName "B" wit9 = handleObjectName "B" wit9 :=
  ⟨(spec_c9_amended wit9 wit9c "" (by decide)).1 (Or.inl rfl),
   (spec_c9_amended wit9 wit9c "B" (by decide)).2 (by decide) (by decide)⟩

/-! ### Claim C2: replacing the section of one part by another -/

/-- C2: after `createSectionPlane("P-001","XY",0.5)` followed by
`createSectionPlane("P-002","XY",-0.3)` on a registry holding parts `P-001`
and `P-002`, the state does satisfy `sectionedPartId = P-002` with only
`P-002`'s mesh visible — but `P-001` is NOT restored: its mesh's material
still carries the clipping plane pushed by the first call, and
`sectionPlanes` still holds `P-001`'s entry, because `createSectionPlane`
tears down the section of its own argument (`removeSectionPlane(partId)`),
never the currently sectioned part's. -/
theorem spec_c2_stale_section :
    (createSectionPlane "P-002" "XY" (mkRat (-3) 10)
        (createSectionPlane "P-001" "XY" (mkRat 1 2) c2state)).sectionedPartId
        = some "P-002" ∧
    (aget "P-001" (createSectionPlane "P-002" "XY" (mkRat (-3) 10)
        (createSectionPlane "P-001" "XY" (mkRat 1 2) c2state)).partMeshes).map Mesh.visible
        = some false ∧
    (aget "P-002" (createSectionPlane "P-002" "XY" (mkRat (-3) 10)
        (createSectionPlane "P-001" "XY" (mkRat 1 2) c2state)).partMeshes).map Mesh.visible
        = some true ∧
    (aget "P-001" (createSectionPlane "P-002" "XY" (mkRat (-3) 10)
        (createSectionPlane "P-001" "XY" (mkRat 1 2) c2state)).partMeshes).map Mesh.material
        = some (MatId.initialMat "P-001") ∧
    clipCount (createSectionPlane "P-002" "XY" (mkRat (-3) 10)
        (createSectionPlane "P-001" "XY" (mkRat 1 2) c2state)) (MatId.initialMat "P-001")
        = 1 ∧
    ahas "P-001" (createSectionPlane "P-002" "XY" (mkRat (-3) 10)
        (createSectionPlane "P-001" "XY" (mkRat 1 2) c2state)).sectionPlanes
        = true := by decide

/-! ### Claim C3: registry operations on an unknown part id -/

/-- C3, counterexample: `selectPart` with an id that is not a key of the
registry does NOT leave the registry state unchanged: on a state with no
selection it records the unknown id as the selected part. -/
theorem spec_c3_counterexample :
    aget "NOPE" c3state.parts = none ∧
    c3state.selectedPart = none ∧
    (selectPart "NOPE" c3state).selectedPart = some "NOPE" := by decide

/-- C3, amended: registry operations with an unknown part id throw no error,
and `hidePart`, `showPart`, `togglePartVisibility`, `highlightPart` and
`removeHighlight` leave the entire registry state unchanged; but
`selectPart` (which still re-targets the selection) and
`removeSectionPlane` (which still restores every mesh's visibility and
clears `sectionedPartId`) are not no-ops. -/
theorem spec_c3_amended (s : PMState) (id : String)
    (h : aget id s.parts = none) :
    hidePart id s = s ∧ showPart id s = s ∧ togglePartVisibility id s = s ∧
    highlightPart id s = s ∧ removeHighlight id s = s := by
  cases hm : aget id s.partMeshes <;>
    refine ⟨?_, ?_, ?_, ?_, ?_⟩ <;>
    simp [hidePart, showPart, togglePartVisibility, highlightPart, removeHighlight, h, hm]

theorem spec_c3_amended_witness :
    hidePart "NOPE" c3state = c3state ∧ showPart "NOPE" c3state = c3state ∧
    togglePartVisibility "NOPE" c3state = c3state ∧
    highlightPart "NOPE" c3state = c3state ∧ removeHighlight "NOPE" c3state = c3state :=
  spec_c3_amended c3state "NOPE" (by decide)

/-! ### Claim C4: part numbering -/

/-- C4, counterexample: on `"o A\nv 0 0 0\no B\nv 0 0 0\nv 1 1 1\nf 1 2 2"`
the first opened part `A` (numbered `P-001`) is rejected at finalize time
(no faces), and the second opened part `B` is then numbered from
`this.parts.length + 1 = 1` again: the output is `[("B", "P-001")]`,
whereas the claim demands that the 2nd opened part receive `P-002` and that
no two opened parts ever share a number. -/
theorem spec_c4_counterexample :
    (analyzeOBJ (ObjInput.str "o A\nv 0 0 0\no B\nv 0 0 0\nv 1 1 1\nf 1 2 2")).map
      (fun p => (p.name, p.partNumber)) = [("B", "P-001")] := by decide

theorem calculateBoundingBox_partNumber (c : ObjPart) :
    (calculateBoundingBox c).partNumber = c.partNumber := by
  unfold calculateBoundingBox
  cases c.vertices <;> rfl

theorem numInv_finalizePart (s : AState) (h : NumInv s) : NumInv (finalizePart s) := by
  cases hc : s.currentPart with
  | none => simpa [finalizePart, hc] using h
  | some c =>
    by_cases hv : c.vertices.length = 0
    · simpa [finalizePart, hc, hv] using h
    · by_cases hval : validatePart (calculateBoundingBox c) = true
      · have he : finalizePart s
            = { parts := s.parts ++ [calculateBoundingBox c], currentPart := none } := by
          simp [finalizePart, hc, hv, hval]
        rw [he]
        refine ⟨?_, by intro c' hc'; exact absurd hc' (by simp)⟩
        have hlen : (s.parts ++ [calculateBoundingBox c]).length = s.parts.length + 1 := by
          simp
        simp only [hlen, List.range_succ, List.map_append, List.map]
        rw [h.1, calculateBoundingBox_partNumber, h.2 c hc]
      · have he : finalizePart s = { parts := s.parts, currentPart := none } := by
          simp [finalizePart, hc, hv, hval]
        rw [he]
        exact ⟨h.1, by intro c' hc'; exact absurd hc' (by simp)⟩

theorem numInv_handleObjectName (name : String) (s : AState) (h : NumInv s) :
    NumInv (handleObjectName name s) := by
  have h1 : NumInv (if s.currentPart.isSome then finalizePart s else s) := by
    split
    · exact numInv_finalizePart s h
    · exact h
  refine ⟨h1.1, ?_⟩
  intro c' hc'
  injection hc' with h2
  rw [← h2]
  rfl

theorem numInv_handleGroupName (name : String) (s : AState) (h : NumInv s) :
    NumInv (handleGroupName name s) := by
  cases hc : s.currentPart with
  | none => simpa [handleGroupName, hc] using numInv_handleObjectName name s h
  | some c =>
    simp only [handleGroupName, hc]
    split
    · exact numInv_handleObjectName name _ (numInv_finalizePart s h)
    · exact h

theorem numInv_setCurrent (s : AState) (c c' : ObjPart) (h : NumInv s)
    (hc : s.currentPart = some c) (hn : c'.partNumber = c.partNumber) :
    NumInv { s with currentPart := some c' } := by
  refine ⟨h.1, ?_⟩
  intro c'' hc''
  injection hc'' with h2
  rw [← h2, hn]
  exact h.2 c hc

theorem numInv_handleMaterialUsage (tok : Option String) (s : AState) (h : NumInv s) :
    NumInv (handleMaterialUsage tok s) := by
  cases hc : s.currentPart with
  | none => simpa [handleMaterialUsage, hc] using h
  | some c =>
    simp only [handleMaterialUsage, hc]
    exact numInv_setCurrent s c _ h hc rfl

theorem numInv_handleVertex (coords : List String) (s : AState) (h : NumInv s) :
    NumInv (handleVertex coords s) := by
  cases hc : s.currentPart with
  | none => simpa [handleVertex, hc] using h
  | some c =>
    simp only [handleVertex, hc]
    split
    · split
      · exact numInv_setCurrent s c _ h hc rfl
      · exact h
    · exact h

theorem numInv_handleNormal (coords : List String) (s : AState) (h : NumInv s) :
    NumInv (handleNormal coords s) := by
  cases hc : s.currentPart with
  | none => simpa [handleNormal, hc] using h
  | some c =>
    simp only [handleNormal, hc]
    split
    · split
      · exact numInv_setCurrent s c _ h hc rfl
      · exact h
    · exact h

theorem numInv_handleTextureCoord (coords : List String) (s : AState) (h : NumInv s) :
    NumInv (handleTextureCoord coords s) := by
  cases hc : s.currentPart with
  | none => simpa [handleTextureCoord, hc] using h
  | some c =>
    simp only [handleTextureCoord, hc]
    split
    · split
      · exact numInv_setCurrent s c _ h hc rfl
      · exact h
    · exact h

theorem numInv_handleFace (faceData : List String) (s : AState) (h : NumInv s) :
    NumInv (handleFace faceData s) := by
  cases hc : s.currentPart with
  | none => simpa [handleFace, hc] using h
  | some c =>
    simp only [handleFace, hc]
    split
    · split
      · exact numInv_setCurrent s c _ h hc rfl
      · exact h
    · exact h

theorem numInv_processLine (s : AState) (line : String) (h : NumInv s) :
    NumInv (processLine s line) := by
  simp only [processLine]
  repeat' split
  all_goals
    first
    | exact h
    | exact numInv_handleObjectName _ _ h
    | exact numInv_handleGroupName _ _ h
    | exact numInv_handleMaterialUsage _ _ h
    | exact numInv_handleVertex _ _ h
    | exact numInv_handleNormal _ _ h
    | exact numInv_handleTextureCoord _ _ h
    | exact numInv_handleFace _ _ h

theorem numInv_foldl (lines : List String) (s : AState) (h : NumInv s) :
    NumInv (lines.foldl processLine s) := by
  induction lines generalizing s with
  | nil => exact h
  | cons l t ih => exact ih _ (numInv_processLine s l h)

theorem numInv_init : NumInv initAState := by
  constructor
  · rfl
  · intro c hc
    exact absurd hc (by simp [initAState])

theorem runAnalyze_map_partNumber (input : String) :
    (runAnalyze input).map ObjPart.partNumber
      = (List.range (runAnalyze input).length).map generatePartNumber := by
  unfold runAnalyze
  have h1 := numInv_foldl (jsSplitChar '\n' input) initAState numInv_init
  by_cases hs : ((jsSplitChar '\n' input).foldl processLine initAState).currentPart.isSome
  · simpa [hs] using (numInv_finalizePart _ h1).1
  · simpa [hs] using h1.1

/-- C4, amended: part numbers are generated from the count of parts
*accepted* so far (`this.parts.length + 1`), not the count of parts opened,
so a rejected part's number is reused by the next opened part; what does
hold is that the `i`-th part of the output sequence (0-based) carries the
number `generatePartNumber i`, i.e. the accepted parts are numbered
`P-001`, `P-002`, … in output order. -/
theorem spec_c4_amended (input : String) (i : Nat)
    (hi : i < (analyzeOBJ (ObjInput.str input)).length) :
    ((analyzeOBJ (ObjInput.str input)).get ⟨i, hi⟩).partNumber = generatePartNumber i := by
  by_cases he : input = ""
  · rw [he] at hi
    simp [analyzeOBJ] at hi
  · have heq : analyzeOBJ (ObjInput.str input) = runAnalyze input := by
      simp [analyzeOBJ, he]
    have hi' : i < (runAnalyze input).length := heq ▸ hi
    have hmap := runAnalyze_map_partNumber input
    have hg := congrArg (fun l => l.get? i) hmap
    simp only at hg
    rw [List.get?_map, List.get?_map, List.get?_eq_get hi', List.get?_range hi'] at hg
    simp only [Option.map_some'] at hg
    have h3 : (analyzeOBJ (ObjInput.str input)).get? i = (runAnalyze input).get? i := by
      rw [heq]
    rw [List.get?_eq_get hi, List.get?_eq_get hi'] at h3
    rw [Option.some.inj h3]
    exact Option.some.inj hg

theorem spec_c4_witness :
    ((analyzeOBJ (ObjInput.str "o A\nv 0 0 0\nv 1 1 1\nf 1 2 2")).get
      ⟨0, by decide⟩).partNumber = "P-001" :=
  (spec_c4_amended "o A\nv 0 0 0\nv 1 1 1\nf 1 2 2" 0 (by decide)).trans (by decide)

/-! ### Claim C5: only valid parts are retained -/

theorem validatePart_good (p : ObjPart) (h : validatePart p = true) : GoodPart p := by
  cases hsz : p.size with
  | none =>
    unfold validatePart at h
    rw [hsz] at h
    simp at h
  | some sz =>
    unfold validatePart at h
    rw [hsz] at h
    simp only [Bool.and_eq_true, decide_eq_true_eq] at h
    obtain ⟨⟨⟨hv, hf⟩, -⟩, ⟨hx, hy⟩, hz⟩ := h
    exact ⟨hv, hf, sz, hsz, hx, hy, hz⟩

theorem goodParts_finalizePart (s : AState) (h : GoodParts s) :
    GoodParts (finalizePart s) := by
  cases hc : s.currentPart with
  | none => simpa [finalizePart, hc] using h
  | some c =>
    by_cases hv : c.vertices.length = 0
    · simpa [finalizePart, hc, hv] using h
    · by_cases hval : validatePart (calculateBoundingBox c) = true
      · have he : finalizePart s
            = { parts := s.parts ++ [calculateBoundingBox c], currentPart := none } := by
          simp [finalizePart, hc, hv, hval]
        rw [he]
        intro p hp
        rcases List.mem_append.mp hp with hp | hp
        · exact h p hp
        · rw [List.mem_singleton.mp hp]
          exact validatePart_good _ hval
      · have he : finalizePart s = { parts := s.parts, currentPart := none } := by
          simp [finalizePart, hc, hv, hval]
        rw [he]
        exact h

theorem goodParts_handleObjectName (name : String) (s : AState) (h : GoodParts s) :
    GoodParts (handleObjectName name s) := by
  have h1 : GoodParts (if s.currentPart.isSome then finalizePart s else s) := by
    split
    · exact goodParts_finalizePart s h
    · exact h
  exact h1

theorem goodParts_handleGroupName (name : String) (s : AState) (h : GoodParts s) :
    GoodParts (handleGroupName name s) := by
  cases hc : s.currentPart with
  | none => simpa [handleGroupName, hc] using goodParts_handleObjectName name s h
  | some c =>
    simp only [handleGroupName, hc]
    split
    · exact goodParts_handleObjectName name _ (goodParts_finalizePart s h)
    · exact h

theorem goodParts_handleMaterialUsage (tok : Option String) (s : AState) (h : GoodParts s) :
    GoodParts (handleMaterialUsage tok s) := by
  cases hc : s.currentPart with
  | none => simpa [handleMaterialUsage, hc] using h
  | some c =>
    simp only [handleMaterialUsage, hc]
    exact h

theorem goodParts_handleVertex (coords : List String) (s : AState) (h : GoodParts s) :
    GoodParts (handleVertex coords s) := by
  cases hc : s.currentPart with
  | none => simpa [handleVertex, hc] using h
  | some c =>
    simp only [handleVertex, hc]
    split
    · split
      · exact h
      · exact h
    · exact h

theorem goodParts_handleNormal (coords : List String) (s : AState) (h : GoodParts s) :
    GoodParts (handleNormal coords s) := by
  cases hc : s.currentPart with
  | none => simpa [handleNormal, hc] using h
  | some c =>
    simp only [handleNormal, hc]
    split
    · split
      · exact h
      · exact h
    · exact h

theorem goodParts_handleTextureCoord (coords : List String) (s : AState) (h : GoodParts s) :
    GoodParts (handleTextureCoord coords s) := by
  cases hc : s.currentPart with
  | none => simpa [handleTextureCoord, hc] using h
  | some c =>
    simp only [handleTextureCoord, hc]
    split
    · split
      · exact h
      · exact h
    · exact h

theorem goodParts_handleFace (faceData : List String) (s : AState) (h : GoodParts s) :
    GoodParts (handleFace faceData s) := by
  cases hc : s.currentPart with
  | none => simpa [handleFace, hc] using h
  | some c =>
    simp only [handleFace, hc]
    split
    · split
      · exact h
      · exact h
    · exact h

theorem goodParts_processLine (s : AState) (line : String) (h : GoodParts s) :
    GoodParts (processLine s line) := by
  simp only [processLine]
  repeat' split
  all_goals
    first
    | exact h
    | exact goodParts_handleObjectName _ _ h
    | exact goodParts_handleGroupName _ _ h
    | exact goodParts_handleMaterialUsage _ _ h
    | exact goodParts_handleVertex _ _ h
    | exact goodParts_handleNormal _ _ h
    | exact goodParts_handleTextureCoord _ _ h
    | exact goodParts_handleFace _ _ h

theorem goodParts_foldl (lines : List String) (s : AState) (h : GoodParts s) :
    GoodParts (lines.foldl processLine s) := by
  induction lines generalizing s with
  | nil => exact h
  | cons l t ih => exact ih _ (goodParts_processLine s l h)

/-- C5: every part in the sequence returned by `analyzeOBJ` has at least one
vertex, at least one face, and a computed size with `size.x > 0`,
`size.y > 0` and `size.z > 0`; parts failing any of these checks never reach
the output. -/
theorem spec_c5_valid_parts (input : String) (p : ObjPart)
    (hp : p ∈ analyzeOBJ (ObjInput.str input)) :
    0 < p.vertices.length ∧ 0 < p.faces.length ∧
    ∃ sz, p.size = some sz ∧ 0 < sz.x ∧ 0 < sz.y ∧ 0 < sz.z := by
  by_cases he : input = ""
  · rw [he] at hp
    simp [analyzeOBJ] at hp
  · have heq : analyzeOBJ (ObjInput.str input) = runAnalyze input := by
      simp [analyzeOBJ, he]
    rw [heq] at hp
    have h1 : GoodParts ((jsSplitChar '\n' input).foldl processLine initAState) :=
      goodParts_foldl _ _ (by intro p hp2; exact absurd hp2 (by simp [initAState]))
    simp only [runAnalyze] at hp
    by_cases hs : ((jsSplitChar '\n' input).foldl processLine initAState).currentPart.isSome
    · rw [if_pos hs] at hp
      exact goodParts_finalizePart _ h1 p hp
    · rw [if_neg hs] at hp
      exact h1 p hp

theorem spec_c5_witness :
    0 < wit5.vertices.length ∧ 0 < wit5.faces.length ∧
    ∃ sz, wit5.size = some sz ∧ 0 < sz.x ∧ 0 < sz.y ∧ 0 < sz.z :=
  spec_c5_valid_parts "o A\nv 0 0 0\nv 1 1 1\nf 1 2 2" wit5 (by decide)

/-! ### Claim C6: face vertex indices -/

/-- C6, counterexample: on `"o A\nv 0 0 0\nv 1 1 1\nf 1 2 5"` the face token
`5` references a vertex that does not exist (the part has 2 vertices), yet
the face line does NOT fail at parse time: `handleFace` rejects only missing
or non-positive indices, so the face is recorded and the output part carries
the out-of-range 0-based index `4 ≥ vertices.length = 2`. -/
theorem spec_c6_counterexample :
    (analyzeOBJ (ObjInput.str "o A\nv 0 0 0\nv 1 1 1\nf 1 2 5")).map
      (fun p => (p.vertices.length, p.faces.map (fun f => f.map FaceVertex.vertexIndex)))
      = [(2, [[0, 1, 4]])] := by decide

theorem checkedFold_fst (lines : List String) (sb : AState × Bool) :
    (checkedFold lines sb).1 = lines.foldl processLine sb.1 := by
  induction lines generalizing sb with
  | nil => rfl
  | cons l t ih => exact ih _

theorem checkedFold_false (lines : List String) (s : AState) :
    (checkedFold lines (s, false)).2 = false := by
  induction lines generalizing s with
  | nil => rfl
  | cons l t ih =>
    simp only [checkedFold, Bool.false_and]
    exact ih _

theorem calculateBoundingBox_faces_eq (c : ObjPart) :
    (calculateBoundingBox c).faces = c.faces := by
  unfold calculateBoundingBox
  cases c.vertices <;> rfl

theorem calculateBoundingBox_vertices_eq (c : ObjPart) :
    (calculateBoundingBox c).vertices = c.vertices := by
  unfold calculateBoundingBox
  cases hv : c.vertices with
  | nil => exact hv
  | cons v0 vs => rfl

theorem FB_calcBB (c : ObjPart) (h : FB c) : FB (calculateBoundingBox c) := by
  intro f hf fv hfv
  rw [calculateBoundingBox_faces_eq] at hf
  rw [calculateBoundingBox_vertices_eq]
  exact h f hf fv hfv

theorem finv_finalizePart (s : AState) (h : FInv s) : FInv (finalizePart s) := by
  cases hc : s.currentPart with
  | none => simpa [finalizePart, hc] using h
  | some c =>
    by_cases hv : c.vertices.length = 0
    · simpa [finalizePart, hc, hv] using h
    · by_cases hval : validatePart (calculateBoundingBox c) = true
      · have he : finalizePart s
            = { parts := s.parts ++ [calculateBoundingBox c], currentPart := none } := by
          simp [finalizePart, hc, hv, hval]
        rw [he]
        refine ⟨?_, by intro c' hc'; exact absurd hc' (by simp)⟩
        intro p hp
        rcases List.mem_append.mp hp with hp | hp
        · exact h.1 p hp
        · rw [List.mem_singleton.mp hp]
          exact FB_calcBB c (h.2 c hc)
      · have he : finalizePart s = { parts := s.parts, currentPart := none } := by
          simp [finalizePart, hc, hv, hval]
        rw [he]
        exact ⟨h.1, by intro c' hc'; exact absurd hc' (by simp)⟩

theorem finv_handleObjectName (name : String) (s : AState) (h : FInv s) :
    FInv (handleObjectName name s) := by
  have h1 : FInv (if s.currentPart.isSome then finalizePart s else s) := by
    split
    · exact finv_finalizePart s h
    · exact h
  refine ⟨h1.1, ?_⟩
  intro c' hc'
  injection hc' with h2
  rw [← h2]
  intro f hf
  exact absurd hf (by simp)

theorem finv_handleGroupName (name : String) (s : AState) (h : FInv s) :
    FInv (handleGroupName name s) := by
  cases hc : s.currentPart with
  | none => simpa [handleGroupName, hc] using finv_handleObjectName name s h
  | some c =>
    simp only [handleGroupName, hc]
    split
    · exact finv_handleObjectName name _ (finv_finalizePart s h)
    · exact h

theorem finv_handleMaterialUsage (tok : Option String) (s : AState) (h : FInv s) :
    FInv (handleMaterialUsage tok s) := by
  cases hc : s.currentPart with
  | none => simpa [handleMaterialUsage, hc] using h
  | some c =>
    simp only [handleMaterialUsage, hc]
    refine ⟨h.1, ?_⟩
    intro c' hc'
    injection hc' with h2
    rw [← h2]
    exact h.2 c hc

theorem finv_handleVertex (coords : List String) (s : AState) (h : FInv s) :
    FInv (handleVertex coords s) := by
  cases hc : s.currentPart with
  | none => simpa [handleVertex, hc] using h
  | some c =>
    simp only [handleVertex, hc]
    split
    · split
      · rename_i x y z tail heq
        refine ⟨h.1, ?_⟩
        intro c' hc'
        injection hc' with h2
        rw [← h2]
        intro f hf fv hfv
        have hb := h.2 c hc f hf fv hfv
        refine ⟨hb.1, lt_of_lt_of_le hb.2 ?_⟩
        simp
      · exact h
    · exact h

theorem finv_handleNormal (coords : List String) (s : AState) (h : FInv s) :
    FInv (handleNormal coords s) := by
  cases hc : s.currentPart with
  | none => simpa [handleNormal, hc] using h
  | some c =>
    simp only [handleNormal, hc]
    split
    · split
      · refine ⟨h.1, ?_⟩
        intro c' hc'
        injection hc' with h2
        rw [← h2]
        exact h.2 c hc
      · exact h
    · exact h

theorem finv_handleTextureCoord (coords : List String) (s : AState) (h : FInv s) :
    FInv (handleTextureCoord coords s) := by
  cases hc : s.currentPart with
  | none => simpa [handleTextureCoord, hc] using h
  | some c =>
    simp only [handleTextureCoord, hc]
    split
    · split
      · refine ⟨h.1, ?_⟩
        intro c' hc'
        injection hc' with h2
        rw [← h2]
        exact h.2 c hc
      · exact h
    · exact h

theorem parseFaceVertex_nonneg (tok : String) (fv : FaceVertex)
    (h : parseFaceVertex tok = some fv) : 0 ≤ fv.vertexIndex := by
  simp only [parseFaceVertex] at h
  split at h
  · exact absurd h (by simp)
  split at h
  · exact absurd h (by simp)
  split at h
  · exact absurd h (by simp)
  injection h with h2
  subst h2
  simp only [FaceVertex.mk.injEq]
  omega

theorem mapM_parseFaceVertex_nonneg (toks : List String) (face : List FaceVertex)
    (h : toks.mapM parseFaceVertex = some face) :
    ∀ fv ∈ face, 0 ≤ fv.vertexIndex := by
  induction toks generalizing face with
  | nil =>
    simp only [List.mapM_nil, pure, Option.some.injEq] at h
    rw [← h]
    intro fv hfv
    exact absurd hfv (by simp)
  | cons a t ih =>
    rw [List.mapM_cons] at h
    cases ha : parseFaceVertex a with
    | none => rw [ha] at h; simp at h
    | some b =>
      rw [ha] at h
      cases ht : t.mapM parseFaceVertex with
      | none => rw [ht] at h; simp at h
      | some bs =>
        rw [ht] at h
        simp only [Option.bind_eq_bind, Option.some_bind, pure, Option.some.injEq] at h
        intro fv hfv
        rw [← h] at hfv
        rcases List.mem_cons.mp hfv with rfl | hfv
        · exact parseFaceVertex_nonneg a fv ha
        · exact ih bs ht fv hfv

theorem finv_handleFace (faceData : List String) (s : AState) (h : FInv s)
    (hok : faceLineOk faceData s = true) : FInv (handleFace faceData s) := by
  cases hc : s.currentPart with
  | none => simpa [handleFace, hc] using h
  | some c =>
    simp only [handleFace, hc]
    by_cases hlen : 3 ≤ faceData.length
    · rw [if_pos hlen]
      cases hm : faceData.mapM parseFaceVertex with
      | none => exact h
      | some face =>
        have hokf : ∀ fv ∈ face, fv.vertexIndex < (c.vertices.length : Int) := by
          have h2 := hok
          simp only [faceLineOk, hc] at h2
          rw [if_pos hlen, hm] at h2
          simpa [List.all_eq_true] using h2
        refine ⟨h.1, ?_⟩
        intro c' hc'
        injection hc' with h2
        rw [← h2]
        intro f hf fv hfv
        rcases List.mem_append.mp hf with hf | hf
        · exact h.2 c hc f hf fv hfv
        · rw [List.mem_singleton.mp hf] at hfv
          exact ⟨mapM_parseFaceVertex_nonneg faceData face hm fv hfv, hokf fv hfv⟩
    · rw [if_neg hlen]
      exact h

theorem finv_processLine (s : AState) (line : String) (h : FInv s)
    (hok : lineFaceOk s line = true) : FInv (processLine s line) := by
  by_cases h0 : (decide (jsTrim line = "") || startsHash (jsTrim line)) = true
  · simpa [processLine, h0] using h
  · cases hsp : splitWs (jsTrim line) with
    | nil =>
      simp only [processLine, h0, hsp]
      simpa [h0] using h
    | cons cmd rest =>
      by_cases hc1 : cmd = "o"
      · simpa [processLine, h0, hsp, hc1] using finv_handleObjectName (joinSpace rest) s h
      · by_cases hc2 : cmd = "g"
        · simpa [processLine, h0, hsp, hc1, hc2] using
            finv_handleGroupName (joinSpace rest) s h
        · by_cases hc3 : cmd = "usemtl"
          · simpa [processLine, h0, hsp, hc1, hc2, hc3] using
              finv_handleMaterialUsage rest.head? s h
          · by_cases hc4 : cmd = "v"
            · simpa [processLine, h0, hsp, hc1, hc2, hc3, hc4] using
                finv_handleVertex rest s h
            · by_cases hc5 : cmd = "vn"
              · simpa [processLine, h0, hsp, hc1, hc2, hc3, hc4, hc5] using
                  finv_handleNormal rest s h
              · by_cases hc6 : cmd = "vt"
                · simpa [processLine, h0, hsp, hc1, hc2, hc3, hc4, hc5, hc6] using
                    finv_handleTextureCoord rest s h
                · by_cases hc7 : cmd = "f"
                  · have hok' : faceLineOk rest s = true := by
                      simpa [lineFaceOk, hsp, h0, hc7] using hok
                    simpa [processLine, h0, hsp, hc1, hc2, hc3, hc4, hc5, hc6, hc7] using
                      finv_handleFace rest s h hok'
                  · simpa [processLine, h0, hsp, hc1, hc2, hc3, hc4, hc5, hc6, hc7] using h

theorem finv_checkedFold (lines : List String) (s : AState) (h : FInv s)
    (hok : (checkedFold lines (s, true)).2 = true) :
    FInv (lines.foldl processLine s) := by
  induction lines generalizing s with
  | nil => exact h
  | cons l t ih =>
    by_cases hl : lineFaceOk s l = true
    · have h2 : (checkedFold t (processLine s l, true)).2 = true := by
        simpa [checkedFold, hl] using hok
      exact ih _ (finv_processLine s l h hl) h2
    · exfalso
      have hl2 : lineFaceOk s l = false := Bool.not_eq_true _ ▸ (by simpa using hl)
      have h2 : (checkedFold t (processLine s l, false)).2 = true := by
        simpa [checkedFold, hl2] using hok
      rw [checkedFold_false] at h2
      exact Bool.false_ne_true h2

/-- C6, amended: a face-vertex token whose vertex index is missing or
non-positive makes the face line fail at parse time, but a too-large index
is recorded unchecked; consequently it is only for inputs whose face lines
reference nothing beyond the vertices already declared for the open part
(`inputFacesOk`) that every output part's face entries carry valid 0-based
indices strictly below that part's `vertices.length`. -/
theorem spec_c6_amended (input : String) (hok : inputFacesOk input = true) :
    ∀ p ∈ analyzeOBJ (ObjInput.str input), ∀ f ∈ p.faces, ∀ fv ∈ f,
      0 ≤ fv.vertexIndex ∧ fv.vertexIndex < (p.vertices.length : Int) := by
  intro p hp
  by_cases he : input = ""
  · rw [he] at hp
    simp [analyzeOBJ] at hp
  · have heq : analyzeOBJ (ObjInput.str input) = runAnalyze input := by
      simp [analyzeOBJ, he]
    rw [heq] at hp
    have hinit : FInv initAState := by
      constructor
      · intro p hp2
        exact absurd hp2 (by simp [initAState])
      · intro c hc
        exact absurd hc (by simp [initAState])
    have h1 : FInv ((jsSplitChar '\n' input).foldl processLine initAState) :=
      finv_checkedFold _ _ hinit hok
    simp only [runAnalyze] at hp
    by_cases hs : ((jsSplitChar '\n' input).foldl processLine initAState).currentPart.isSome
    · rw [if_pos hs] at hp
      exact (finv_finalizePart _ h1).1 p hp
    · rw [if_neg hs] at hp
      exact h1.1 p hp

theorem spec_c6_witness :
    0 ≤ (FaceVertex.mk 1 (some (-1)) (some (-1))).vertexIndex ∧
    (FaceVertex.mk 1 (some (-1)) (some (-1))).vertexIndex < (wit5.vertices.length : Int) :=
  spec_c6_amended "o A\nv 0 0 0\nv 1 1 1\nf 1 2 2" (by decide) wit5 (by decide)
    (wit5.faces.headI) (by decide) (FaceVertex.mk 1 (some (-1)) (some (-1))) (by decide)

/-! ### PartManager: frame lemmas

`FrameEq s t` records what every registry mutation of `RegOp` leaves
untouched: the section-mode marker and the key sets of the part and mesh
maps. -/

theorem map_snd_fst {κ α : Type} (g : κ → α → α) (l : List (κ × α)) :
    (l.map (fun p => (p.1, g p.1 p.2))).map Prod.fst = l.map Prod.fst := by
  induction l with
  | nil => rfl
  | cons p t ih => simp [ih]

theorem frameEq_refl (s : PMState) : FrameEq s s := ⟨rfl, rfl, rfl⟩

theorem frameEq_trans {s t u : PMState} (h1 : FrameEq s t) (h2 : FrameEq t u) :
    FrameEq s u :=
  ⟨h2.1.trans h1.1, h2.2.1.trans h1.2.1, h2.2.2.trans h1.2.2⟩

theorem foldl_pres {β : Type} (Q : PMState → Prop) (f : PMState → β → PMState)
    (hf : ∀ s b, Q s → Q (f s b)) (l : List β) (s : PMState) (hQ : Q s) :
    Q (l.foldl f s) := by
  induction l generalizing s with
  | nil => exact hQ
  | cons a t ih => exact ih _ (hf s a hQ)

theorem frameEq_maintain (s : PMState) : FrameEq s (maintainSectioningIsolation s) := by
  cases h : s.sectionedPartId <;>
    simp [maintainSectioningIsolation, h, FrameEq, map_snd_fst]

theorem frameEq_hidePart (id : String) (s : PMState) : FrameEq s (hidePart id s) := by
  cases h1 : aget id s.parts <;> cases h2 : aget id s.partMeshes <;>
    simp only [hidePart, h1, h2] <;>
    first
    | exact frameEq_refl s
    | exact ⟨rfl, by dsimp only; exact aupd_fst _ _ _, by dsimp only; exact aupd_fst _ _ _⟩

theorem frameEq_showPart (id : String) (s : PMState) : FrameEq s (showPart id s) := by
  cases h1 : aget id s.parts <;> cases h2 : aget id s.partMeshes <;>
    simp only [showPart, h1, h2] <;>
    first
    | exact frameEq_refl s
    | exact ⟨rfl, by dsimp only; exact aupd_fst _ _ _, by dsimp only; exact aupd_fst _ _ _⟩

theorem frameEq_togglePartVisibility (id : String) (s : PMState) :
    FrameEq s (togglePartVisibility id s) := by
  cases h1 : aget id s.parts with
  | none => simp [togglePartVisibility, h1, frameEq_refl]
  | some part =>
    simp only [togglePartVisibility, h1]
    split
    · exact frameEq_showPart id s
    · exact frameEq_hidePart id s

theorem frameEq_highlightPart (id : String) (s : PMState) :
    FrameEq s (highlightPart id s) := by
  cases h1 : aget id s.parts <;> cases h2 : aget id s.partMeshes <;>
    simp only [highlightPart, h1, h2] <;>
    first
    | exact frameEq_refl s
    | (split
       · exact ⟨rfl, by dsimp only; exact aupd_fst _ _ _, by dsimp only; exact aupd_fst _ _ _⟩
       · exact frameEq_refl s)

theorem frameEq_removeHighlight (id : String) (s : PMState) :
    FrameEq s (removeHighlight id s) := by
  cases h1 : aget id s.parts <;> cases h2 : aget id s.partMeshes <;>
    simp only [removeHighlight, h1, h2] <;>
    first
    | exact frameEq_refl s
    | (split
       · cases h3 : aget id s.originalMaterials <;>
           simp only [h3] <;>
           first
           | exact ⟨rfl, by dsimp only; exact aupd_fst _ _ _, rfl⟩
           | exact ⟨rfl, by dsimp only; exact aupd_fst _ _ _, by dsimp only; exact aupd_fst _ _ _⟩
       · exact frameEq_refl s)

theorem frameEq_deselectPart (id : String) (s : PMState) :
    FrameEq s (deselectPart id s) := by
  simp only [deselectPart]
  refine frameEq_trans ?_ (frameEq_maintain _)
  split
  · refine frameEq_trans ?_ (frameEq_removeHighlight id _)
    exact ⟨rfl, by dsimp only; exact aupd_fst _ _ _, rfl⟩
  · exact frameEq_refl s

theorem frameEq_selectPart (id : String) (s : PMState) :
    FrameEq s (selectPart id s) := by
  have h1 : FrameEq s
      (match s.selectedPart with
       | some prev => if prev ≠ "" ∧ prev ≠ id then deselectPart prev s else s
       | none => s) := by
    split
    · split
      · exact frameEq_deselectPart _ s
      · exact frameEq_refl s
    · exact frameEq_refl s
  simp only [selectPart]
  refine frameEq_trans ?_ (frameEq_maintain _)
  split
  · refine frameEq_trans ?_ (frameEq_highlightPart id _)
    exact frameEq_trans h1 ⟨rfl, by dsimp only; exact aupd_fst _ _ _, rfl⟩
  · exact frameEq_trans h1 ⟨rfl, rfl, rfl⟩

theorem frameEq_deselectAllParts (s : PMState) : FrameEq s (deselectAllParts s) := by
  simp only [deselectAllParts]
  refine frameEq_trans ?_ (frameEq_maintain _)
  split
  · split
    · exact frameEq_trans (frameEq_deselectPart _ s) ⟨rfl, rfl, rfl⟩
    · exact frameEq_refl s
  · exact frameEq_refl s

theorem frameEq_isolatePart (id : String) (s : PMState) :
    FrameEq s (isolatePart id s) := by
  simp only [isolatePart]
  refine foldl_pres (FrameEq s) _ ?_ _ _ ⟨rfl, rfl, rfl⟩
  intro t b ht
  split
  · exact frameEq_trans ht (frameEq_hidePart b t)
  · exact frameEq_trans ht (frameEq_showPart b t)

theorem frameEq_showAllParts (s : PMState) : FrameEq s (showAllParts s) := by
  simp only [showAllParts]
  cases hp : s.preIsolationState with
  | some snap =>
    refine foldl_pres (FrameEq s) _ ?_ _ _ (frameEq_refl s)
    intro t b ht
    split
    · exact frameEq_trans ht (frameEq_hidePart b.1 t)
    · exact frameEq_trans ht (frameEq_showPart b.1 t)
  | none =>
    refine foldl_pres (FrameEq s) _ ?_ _ _ (frameEq_refl s)
    intro t b ht
    exact frameEq_trans ht (frameEq_showPart b t)

theorem frameEq_applyOp (op : RegOp) (s : PMState) : FrameEq s (applyOp op s) := by
  cases op with
  | selectOp id => exact frameEq_selectPart id s
  | deselectOp id => exact frameEq_deselectPart id s
  | deselectAllOp => exact frameEq_deselectAllParts s
  | hideOp id => exact frameEq_hidePart id s
  | showOp id => exact frameEq_showPart id s
  | toggleOp id => exact frameEq_togglePartVisibility id s
  | isolateOp id => exact frameEq_isolatePart id s
  | showAllOp => exact frameEq_showAllParts s
  | highlightOp id => exact frameEq_highlightPart id s
  | unhighlightOp id => exact frameEq_removeHighlight id s

theorem update_eq_maintain (s : PMState) :
    update s = maintainSectioningIsolation s := by
  simp only [update]
  cases h : (maintainSectioningIsolation s).sectionedPartId with
  | none => simp
  | some pid => simp [h, isInSectioningMode]

theorem frameEq_update (s : PMState) : FrameEq s (update s) := by
  rw [update_eq_maintain]
  exact frameEq_maintain s

theorem frameEq_applyStep (stp : Step) (s : PMState) : FrameEq s (applyStep stp s) := by
  cases stp with
  | op o => exact frameEq_applyOp o s
  | tick => exact frameEq_update s

theorem frameEq_applySteps (steps : List Step) (s : PMState) :
    FrameEq s (applySteps steps s) := by
  refine foldl_pres (FrameEq s) _ ?_ _ _ (frameEq_refl s)
  intro t b ht
  exact frameEq_trans ht (frameEq_applyStep b t)

/-! ### Claim C1: the standing section invariant -/

theorem filter_visible_maintain (A : String) (l : List (String × Mesh)) :
    (((l.map (fun p => (p.1, { p.2 with visible := p.1 = A }))).filter
        (fun p => p.2.visible)).map Prod.fst)
      = (l.map Prod.fst).filter (fun k => decide (k = A)) := by
  induction l with
  | nil => rfl
  | cons p t ih =>
    by_cases h : p.1 = A <;> simp [h, ih]

theorem filter_eq_self_of_nodup (A : String) (ks : List String)
    (hnd : ks.Nodup) (hA : A ∈ ks) :
    ks.filter (fun k => decide (k = A)) = [A] := by
  induction ks with
  | nil => cases hA
  | cons k t ih =>
    rcases List.mem_cons.mp hA with h | hA2
    · subst h
      have hnotin : A ∉ t := (List.nodup_cons.mp hnd).1
      have hnil : t.filter (fun x => decide (x = A)) = [] := by
        rw [List.filter_eq_nil]
        intro a ha
        simp only [decide_eq_true_eq]
        exact fun e => hnotin (e ▸ ha)
      simp [hnil]
    · have hrec := ih (List.nodup_cons.mp hnd).2 hA2
      have hk : ¬ k = A := fun e => (List.nodup_cons.mp hnd).1 (e ▸ hA2)
      simp [hk, hrec]

/-- C1: once the registry is in section mode for part `A`
(`sectionedPartId = A`, established by `createSectionPlane(A, …)`), then
after every per-frame `update()` tick exactly one registered part — `A` —
has a visible mesh, regardless of the registry mutations (selection,
hide/show, isolate/show-all, highlight) and further ticks performed in
between: none of them clears `sectionedPartId`, and the tick's
`maintainSectioningIsolation` re-asserts the visibility rule. -/
theorem spec_c1_section_invariant (A : String) (s : PMState) (steps : List Step)
    (hsec : s.sectionedPartId = some A)
    (hnd : (s.partMeshes.map Prod.fst).Nodup)
    (hA : A ∈ s.partMeshes.map Prod.fst) :
    (((update (applySteps steps s)).partMeshes.filter
        (fun p => p.2.visible)).map Prod.fst) = [A] := by
  have hf := frameEq_applySteps steps s
  have hsec2 : (applySteps steps s).sectionedPartId = some A := hf.1.trans hsec
  have hkeys : (applySteps steps s).partMeshes.map Prod.fst
      = s.partMeshes.map Prod.fst := hf.2.2
  rw [update_eq_maintain]
  simp only [maintainSectioningIsolation, hsec2]
  rw [filter_visible_maintain, hkeys]
  exact filter_eq_self_of_nodup A _ hnd hA

theorem spec_c1_witness :
    (((update (applySteps
        [Step.op (RegOp.hideOp "P-001"), Step.op (RegOp.showOp "P-002"), Step.tick,
         Step.op (RegOp.isolateOp "P-002"), Step.op (RegOp.selectOp "P-002")]
        wit1)).partMeshes.filter (fun p => p.2.visible)).map Prod.fst) = ["P-001"] :=
  spec_c1_section_invariant "P-001" wit1
    [Step.op (RegOp.hideOp "P-001"), Step.op (RegOp.showOp "P-002"), Step.tick,
     Step.op (RegOp.isolateOp "P-002"), Step.op (RegOp.selectOp "P-002")]
    (by decide) (by decide) (by decide)

/-! ### Claim C8: hidden flag vs. mesh visibility -/

theorem lockStepB_iff (s : PMState) :
    lockStepB s = true ↔
      ∀ pr ∈ s.parts, ∀ m, aget pr.1 s.partMeshes = some m →
        m.visible = !pr.2.isHidden := by
  rw [lockStepB, List.all_eq_true]
  constructor
  · intro h pr hpr m hm
    have h2 := h pr hpr
    rw [hm] at h2
    simpa using h2
  · intro h pr hpr
    cases hm : aget pr.1 s.partMeshes with
    | none => rfl
    | some m => simpa using h pr hpr m hm

theorem lockStepB_congr {s t : PMState} (hp : t.parts = s.parts)
    (hm : t.partMeshes = s.partMeshes) (h : lockStepB s = true) :
    lockStepB t = true := by
  rw [lockStepB] at h ⊢
  rw [hp, hm]
  exact h

theorem aupd_id {κ α : Type} [DecidableEq κ] (k : κ) (l : List (κ × α)) :
    aupd k (fun a => a) l = l := by
  induction l with
  | nil => rfl
  | cons p t ih => by_cases h : p.1 = k <;> simp [aupd, h] at ih ⊢ <;> exact ih

theorem lockStep_aupd₂ (id : String) (s : PMState) (f : MPart → MPart) (g : Mesh → Mesh)
    (hsync : ∀ p m, m.visible = !p.isHidden → (g m).visible = !(f p).isHidden)
    (h : lockStepB s = true) :
    lockStepB { s with parts := aupd id f s.parts,
                       partMeshes := aupd id g s.partMeshes } = true := by
  rw [lockStepB_iff] at h ⊢
  dsimp only
  intro pr hpr m hm
  simp only [aupd, List.mem_map] at hpr
  obtain ⟨q, hq, hpr⟩ := hpr
  rw [show (aupd id g s.partMeshes) = s.partMeshes.map
      (fun p => if p.1 = id then (p.1, g p.2) else p) from rfl] at hm
  by_cases hid : q.1 = id
  · rw [if_pos hid] at hpr
    subst hpr
    dsimp only at hm ⊢
    rw [show s.partMeshes.map (fun p => if p.1 = id then (p.1, g p.2) else p)
        = aupd id g s.partMeshes from rfl, aget_aupd, if_pos hid] at hm
    cases hmm : aget id s.partMeshes with
    | none => rw [hmm] at hm; exact absurd hm (by simp)
    | some mesh =>
      rw [hmm] at hm
      simp only [Option.map_some'] at hm
      obtain rfl := Option.some.inj hm
      exact hsync q.2 mesh (h q hq mesh (by rw [hid]; exact hmm))
  · rw [if_neg hid] at hpr
    subst hpr
    rw [show s.partMeshes.map (fun p => if p.1 = id then (p.1, g p.2) else p)
        = aupd id g s.partMeshes from rfl, aget_aupd, if_neg hid] at hm
    exact h q hq m hm

theorem lockStep_aupd_parts (id : String) (s : PMState) (f : MPart → MPart)
    (hf : ∀ p, (f p).isHidden = p.isHidden) (h : lockStepB s = true) :
    lockStepB { s with parts := aupd id f s.parts } = true := by
  have h2 := lockStep_aupd₂ id s f (fun m => m)
    (by intro p m hv; rw [hf p]; exact hv) h
  rw [aupd_id] at h2
  exact h2

theorem lockStep_maintain (s : PMState) (h0 : s.sectionedPartId = none) :
    maintainSectioningIsolation s = s := by
  simp [maintainSectioningIsolation, h0]

theorem lockStep_maintain_comp (t : PMState) (h0 : t.sectionedPartId = none)
    (h : lockStepB t = true) :
    lockStepB (maintainSectioningIsolation t) = true := by
  rw [lockStep_maintain t h0]
  exact h

theorem lockStep_hidePart (id : String) (s : PMState) (h : lockStepB s = true) :
    lockStepB (hidePart id s) = true := by
  cases h1 : aget id s.parts with
  | none => cases h2 : aget id s.partMeshes <;> simp only [hidePart, h1, h2] <;> exact h
  | some part =>
    cases h2 : aget id s.partMeshes with
    | none => simp only [hidePart, h1, h2]; exact h
    | some mesh =>
      simp only [hidePart, h1, h2]
      exact lockStepB_congr rfl rfl (lockStep_aupd₂ id s _ _ (fun p m _ => rfl) h)

theorem lockStep_showPart (id : String) (s : PMState) (h : lockStepB s = true) :
    lockStepB (showPart id s) = true := by
  cases h1 : aget id s.parts with
  | none => cases h2 : aget id s.partMeshes <;> simp only [showPart, h1, h2] <;> exact h
  | some part =>
    cases h2 : aget id s.partMeshes with
    | none => simp only [showPart, h1, h2]; exact h
    | some mesh =>
      simp only [showPart, h1, h2]
      exact lockStepB_congr rfl rfl (lockStep_aupd₂ id s _ _ (fun p m _ => rfl) h)

theorem lockStep_togglePartVisibility (id : String) (s : PMState)
    (h : lockStepB s = true) : lockStepB (togglePartVisibility id s) = true := by
  cases h1 : aget id s.parts with
  | none => simp only [togglePartVisibility, h1]; exact h
  | some part =>
    simp only [togglePartVisibility, h1]
    split
    · exact lockStep_showPart id s h
    · exact lockStep_hidePart id s h

theorem lockStep_highlightPart (id : String) (s : PMState) (h : lockStepB s = true) :
    lockStepB (highlightPart id s) = true := by
  cases h1 : aget id s.parts with
  | none => cases h2 : aget id s.partMeshes <;> simp only [highlightPart, h1, h2] <;> exact h
  | some part =>
    cases h2 : aget id s.partMeshes with
    | none => simp only [highlightPart, h1, h2]; exact h
    | some mesh =>
      simp only [highlightPart, h1, h2]
      split
      · exact lockStepB_congr rfl rfl (lockStep_aupd₂ id s _ _ (fun p m hv => hv) h)
      · exact h

theorem lockStep_removeHighlight (id : String) (s : PMState) (h : lockStepB s = true) :
    lockStepB (removeHighlight id s) = true := by
  cases h1 : aget id s.parts with
  | none => cases h2 : aget id s.partMeshes <;> simp only [removeHighlight, h1, h2] <;> exact h
  | some part =>
    cases h2 : aget id s.partMeshes with
    | none => simp only [removeHighlight, h1, h2]; exact h
    | some mesh =>
      simp only [removeHighlight, h1, h2]
      split
      · cases h3 : aget id s.originalMaterials with
        | some om =>
          simp only [h3]
          exact lockStepB_congr rfl rfl (lockStep_aupd₂ id s _ _ (fun p m hv => hv) h)
        | none =>
          simp only [h3]
          exact lockStepB_congr rfl rfl (lockStep_aupd_parts id s _ (fun p => rfl) h)
      · exact h

theorem lockStep_deselectPart (id : String) (s : PMState)
    (h0 : s.sectionedPartId = none) (h : lockStepB s = true) :
    lockStepB (deselectPart id s) = true := by
  simp only [deselectPart]
  apply lockStep_maintain_comp
  · split
    · exact ((frameEq_removeHighlight id _).1).trans h0
    · exact h0
  · split
    · exact lockStep_removeHighlight id _ (lockStep_aupd_parts id s _ (fun p => rfl) h)
    · exact h

theorem lockStep_selectPart (id : String) (s : PMState)
    (h0 : s.sectionedPartId = none) (h : lockStepB s = true) :
    lockStepB (selectPart id s) = true := by
  have h1sect : (match s.selectedPart with
      | some prev => if prev ≠ "" ∧ prev ≠ id then deselectPart prev s else s
      | none => s).sectionedPartId = none := by
    split
    · split
      · exact ((frameEq_deselectPart _ s).1).trans h0
      · exact h0
    · exact h0
  have h1lock : lockStepB (match s.selectedPart with
      | some prev => if prev ≠ "" ∧ prev ≠ id then deselectPart prev s else s
      | none => s) = true := by
    split
    · split
      · exact lockStep_deselectPart _ s h0 h
      · exact h
    · exact h
  simp only [selectPart]
  apply lockStep_maintain_comp
  · split
    · exact ((frameEq_highlightPart id _).1).trans h1sect
    · exact h1sect
  · split
    · exact lockStep_highlightPart id _
        (lockStep_aupd_parts id _ _ (fun p => rfl) (lockStepB_congr rfl rfl h1lock))
    · exact lockStepB_congr rfl rfl h1lock

theorem lockStep_deselectAllParts (s : PMState)
    (h0 : s.sectionedPartId = none) (h : lockStepB s = true) :
    lockStepB (deselectAllParts s) = true := by
  have h1sect : (match s.selectedPart with
      | some sel => if sel ≠ "" then { (deselectPart sel s) with selectedPart := none } else s
      | none => s).sectionedPartId = none := by
    split
    · split
      · exact ((frameEq_deselectPart _ s).1).trans h0
      · exact h0
    · exact h0
  have h1lock : lockStepB (match s.selectedPart with
      | some sel => if sel ≠ "" then { (deselectPart sel s) with selectedPart := none } else s
      | none => s) = true := by
    split
    · split
      · exact lockStepB_congr rfl rfl (lockStep_deselectPart _ s h0 h)
      · exact h
    · exact h
  simp only [deselectAllParts]
  exact lockStep_maintain_comp _ h1sect h1lock

theorem lockStep_isolatePart (id : String) (s : PMState)
    (h0 : s.sectionedPartId = none) (h : lockStepB s = true) :
    lockStepB (isolatePart id s) = true := by
  simp only [isolatePart]
  have hfold := foldl_pres
    (fun t => t.sectionedPartId = none ∧ lockStepB t = true)
    (fun st b => if b ≠ id then hidePart b st else showPart b st)
    (by
      intro t b ht
      dsimp only
      split
      · exact ⟨((frameEq_hidePart b t).1).trans ht.1, lockStep_hidePart b t ht.2⟩
      · exact ⟨((frameEq_showPart b t).1).trans ht.1, lockStep_showPart b t ht.2⟩)
    (s.parts.map Prod.fst)
    { s with preIsolationState := some (s.parts.map (fun p => (p.1, p.2.isHidden))) }
    ⟨h0, lockStepB_congr rfl rfl h⟩
  exact hfold.2

theorem lockStep_showAllParts (s : PMState)
    (h0 : s.sectionedPartId = none) (h : lockStepB s = true) :
    lockStepB (showAllParts s) = true := by
  simp only [showAllParts]
  cases hp : s.preIsolationState with
  | some snap =>
    have hfold := foldl_pres
      (fun t => t.sectionedPartId = none ∧ lockStepB t = true)
      (fun st pr => if pr.2 then hidePart pr.1 st else showPart pr.1 st)
      (by
        intro t b ht
        dsimp only
        split
        · exact ⟨((frameEq_hidePart b.1 t).1).trans ht.1, lockStep_hidePart b.1 t ht.2⟩
        · exact ⟨((frameEq_showPart b.1 t).1).trans ht.1, lockStep_showPart b.1 t ht.2⟩)
      snap s ⟨h0, h⟩
    exact hfold.2
  | none =>
    have hfold := foldl_pres
      (fun t => t.sectionedPartId = none ∧ lockStepB t = true)
      (fun st b => showPart b st)
      (by
        intro t b ht
        exact ⟨((frameEq_showPart b t).1).trans ht.1, lockStep_showPart b t ht.2⟩)
      (s.parts.map Prod.fst) s ⟨h0, h⟩
    exact hfold.2

theorem lockStep_applyOp (op : RegOp) (s : PMState)
    (h0 : s.sectionedPartId = none) (h : lockStepB s = true) :
    lockStepB (applyOp op s) = true := by
  cases op with
  | selectOp id => exact lockStep_selectPart id s h0 h
  | deselectOp id => exact lockStep_deselectPart id s h0 h
  | deselectAllOp => exact lockStep_deselectAllParts s h0 h
  | hideOp id => exact lockStep_hidePart id s h
  | showOp id => exact lockStep_showPart id s h
  | toggleOp id => exact lockStep_togglePartVisibility id s h
  | isolateOp id => exact lockStep_isolatePart id s h0 h
  | showAllOp => exact lockStep_showAllParts s h0 h
  | highlightOp id => exact lockStep_highlightPart id s h
  | unhighlightOp id => exact lockStep_removeHighlight id s h

/-- C8, amended: outside section mode the lock-step invariant
`mesh.visible = !part.isHidden` is preserved by every sequence of the
selection, visibility, highlight and isolate operations of the registry —
but not by `removeSectionPlane`, which restores every mesh's visibility
without clearing the `isHidden` flags (see the counterexample). -/
theorem spec_c8_amended (s : PMState) (ops : List RegOp)
    (h0 : s.sectionedPartId = none) (h : lockStepB s = true) :
    (applyOps ops s).sectionedPartId = none ∧ lockStepB (applyOps ops s) = true := by
  refine foldl_pres (fun t => t.sectionedPartId = none ∧ lockStepB t = true) _ ?_ ops s ⟨h0, h⟩
  intro t op ht
  exact ⟨((frameEq_applyOp op t).1).trans ht.1, lockStep_applyOp op t ht.1 ht.2⟩

/-- C8, counterexample: `removeSectionPlane` is a registry operation, and
after `hidePart("P-001")` followed by `removeSectionPlane("P-001")` the
registry is outside section mode (`sectionedPartId = none`) yet `P-001` has
`isHidden = true` while its mesh is visible — the flag and the renderer
visibility flag disagree with no section-mode override in force. -/
theorem spec_c8_counterexample :
    (removeSectionPlane "P-001" (hidePart "P-001" c8state)).sectionedPartId = none ∧
    (aget "P-001" (removeSectionPlane "P-001" (hidePart "P-001" c8state)).parts).map
      MPart.isHidden = some true ∧
    (aget "P-001" (removeSectionPlane "P-001" (hidePart "P-001" c8state)).partMeshes).map
      Mesh.visible = some true := by decide

theorem spec_c8_witness :
    (applyOps [RegOp.hideOp "P-002", RegOp.selectOp "P-001", RegOp.isolateOp "P-001",
        RegOp.showAllOp] c8state).sectionedPartId = none ∧
    lockStepB (applyOps [RegOp.hideOp "P-002", RegOp.selectOp "P-001",
        RegOp.isolateOp "P-001", RegOp.showAllOp] c8state) = true :=
  spec_c8_amended c8state
    [RegOp.hideOp "P-002", RegOp.selectOp "P-001", RegOp.isolateOp "P-001", RegOp.showAllOp]
    (by decide) (by decide)

/-! ### Claim C7: isolate / show-all round trip -/

theorem hidePart_preIso (id : String) (s : PMState) :
    (hidePart id s).preIsolationState = s.preIsolationState := by
  cases h1 : aget id s.parts <;> cases h2 : aget id s.partMeshes <;>
    simp only [hidePart, h1, h2]

theorem showPart_preIso (id : String) (s : PMState) :
    (showPart id s).preIsolationState = s.preIsolationState := by
  cases h1 : aget id s.parts <;> cases h2 : aget id s.partMeshes <;>
    simp only [showPart, h1, h2]

theorem hidePart_get_ne (id id' : String) (s : PMState) (hne : id' ≠ id) :
    aget id' (hidePart id s).parts = aget id' s.parts ∧
    aget id' (hidePart id s).partMeshes = aget id' s.partMeshes := by
  cases h1 : aget id s.parts with
  | none =>
    have he : hidePart id s = s := by
      cases h2 : aget id s.partMeshes <;> simp [hidePart, h1, h2]
    rw [he]
    exact ⟨rfl, rfl⟩
  | some part =>
    cases h2 : aget id s.partMeshes with
    | none =>
      have he : hidePart id s = s := by simp [hidePart, h1, h2]
      rw [he]
      exact ⟨rfl, rfl⟩
    | some mesh =>
      have he1 : (hidePart id s).parts
          = aupd id (fun p => { p with isHidden := true }) s.parts := by
        simp [hidePart, h1, h2]
      have he2 : (hidePart id s).partMeshes
          = aupd id (fun m => { m with visible := false }) s.partMeshes := by
        simp [hidePart, h1, h2]
      rw [he1, he2, aget_aupd, aget_aupd, if_neg hne, if_neg hne]
      exact ⟨rfl, rfl⟩

theorem showPart_get_ne (id id' : String) (s : PMState) (hne : id' ≠ id) :
    aget id' (showPart id s).parts = aget id' s.parts ∧
    aget id' (showPart id s).partMeshes = aget id' s.partMeshes := by
  cases h1 : aget id s.parts with
  | none =>
    have he : showPart id s = s := by
      cases h2 : aget id s.partMeshes <;> simp [showPart, h1, h2]
    rw [he]
    exact ⟨rfl, rfl⟩
  | some part =>
    cases h2 : aget id s.partMeshes with
    | none =>
      have he : showPart id s = s := by simp [showPart, h1, h2]
      rw [he]
      exact ⟨rfl, rfl⟩
    | some mesh =>
      have he1 : (showPart id s).parts
          = aupd id (fun p => { p with isHidden := false }) s.parts := by
        simp [showPart, h1, h2]
      have he2 : (showPart id s).partMeshes
          = aupd id (fun m => { m with visible := true }) s.partMeshes := by
        simp [showPart, h1, h2]
      rw [he1, he2, aget_aupd, aget_aupd, if_neg hne, if_neg hne]
      exact ⟨rfl, rfl⟩

theorem hidePart_get_self (id : String) (s : PMState) (p : MPart) (m : Mesh)
    (hp : aget id s.parts = some p) (hm : aget id s.partMeshes = some m) :
    aget id (hidePart id s).parts = some { p with isHidden := true } ∧
    aget id (hidePart id s).partMeshes = some { m with visible := false } := by
  simp only [hidePart, hp, hm]
  constructor
  · rw [aget_aupd, if_pos rfl, hp]
    rfl
  · rw [aget_aupd, if_pos rfl, hm]
    rfl

theorem showPart_get_self (id : String) (s : PMState) (p : MPart) (m : Mesh)
    (hp : aget id s.parts = some p) (hm : aget id s.partMeshes = some m) :
    aget id (showPart id s).parts = some { p with isHidden := false } ∧
    aget id (showPart id s).partMeshes = some { m with visible := true } := by
  simp only [showPart, hp, hm]
  constructor
  · rw [aget_aupd, if_pos rfl, hp]
    rfl
  · rw [aget_aupd, if_pos rfl, hm]
    rfl

theorem foldSnap_get_notmem (snap : List (String × Bool)) (s : PMState) (id : String)
    (hid : id ∉ snap.map Prod.fst) :
    aget id (snap.foldl (fun st pr => if pr.2 then hidePart pr.1 st else showPart pr.1 st)
        s).parts = aget id s.parts ∧
    aget id (snap.foldl (fun st pr => if pr.2 then hidePart pr.1 st else showPart pr.1 st)
        s).partMeshes = aget id s.partMeshes := by
  induction snap generalizing s with
  | nil => exact ⟨rfl, rfl⟩
  | cons pr t ih =>
    have hne : id ≠ pr.1 := fun e => hid (by simp [e])
    have hid2 : id ∉ t.map Prod.fst := fun hh => hid (by simp [hh])
    simp only [List.foldl_cons]
    obtain ⟨ha, hb⟩ := ih (if pr.2 then hidePart pr.1 s else showPart pr.1 s) hid2
    constructor
    · rw [ha]
      split
      · exact (hidePart_get_ne pr.1 id s hne).1
      · exact (showPart_get_ne pr.1 id s hne).1
    · rw [hb]
      split
      · exact (hidePart_get_ne pr.1 id s hne).2
      · exact (showPart_get_ne pr.1 id s hne).2

theorem foldSnap_get_mem (snap : List (String × Bool)) (s : PMState) (id : String) (w : Bool)
    (hnd : (snap.map Prod.fst).Nodup) (hmem : (id, w) ∈ snap)
    (hp : (aget id s.parts).isSome = true) (hm : (aget id s.partMeshes).isSome = true) :
    (aget id (snap.foldl (fun st pr => if pr.2 then hidePart pr.1 st else showPart pr.1 st)
        s).parts).map MPart.isHidden = some w ∧
    (aget id (snap.foldl (fun st pr => if pr.2 then hidePart pr.1 st else showPart pr.1 st)
        s).partMeshes).map Mesh.visible = some (!w) := by
  induction snap generalizing s with
  | nil => cases hmem
  | cons pr t ih =>
    simp only [List.foldl_cons]
    by_cases hidq : id = pr.1
    · have hnotin : pr.1 ∉ t.map Prod.fst := (List.nodup_cons.mp hnd).1
      have hw : w = pr.2 := by
        rcases List.mem_cons.mp hmem with he | hmem2
        · exact congrArg Prod.snd he
        · exact absurd (List.mem_map.mpr ⟨(id, w), hmem2, hidq⟩) hnotin
      subst hw
      rw [hidq] at hp hm ⊢
      obtain ⟨p, hp'⟩ := Option.isSome_iff_exists.mp hp
      obtain ⟨m, hm'⟩ := Option.isSome_iff_exists.mp hm
      cases hb : pr.2 with
      | true =>
        rw [if_pos rfl]
        obtain ⟨hq1, hq2⟩ := hidePart_get_self pr.1 s p m hp' hm'
        obtain ⟨hf1, hf2⟩ := foldSnap_get_notmem t (hidePart pr.1 s) pr.1 hnotin
        rw [hf1, hf2, hq1, hq2]
        exact ⟨rfl, rfl⟩
      | false =>
        rw [if_neg Bool.false_ne_true]
        obtain ⟨hq1, hq2⟩ := showPart_get_self pr.1 s p m hp' hm'
        obtain ⟨hf1, hf2⟩ := foldSnap_get_notmem t (showPart pr.1 s) pr.1 hnotin
        rw [hf1, hf2, hq1, hq2]
        exact ⟨rfl, rfl⟩
    · have hmem2 : (id, w) ∈ t := by
        rcases List.mem_cons.mp hmem with he | hmem2
        · exact absurd (congrArg Prod.fst he) hidq
        · exact hmem2
      have hstep1 : aget id (if pr.2 then hidePart pr.1 s else showPart pr.1 s).parts
          = aget id s.parts := by
        split
        · exact (hidePart_get_ne pr.1 id s hidq).1
        · exact (showPart_get_ne pr.1 id s hidq).1
      have hstep2 : aget id (if pr.2 then hidePart pr.1 s else showPart pr.1 s).partMeshes
          = aget id s.partMeshes := by
        split
        · exact (hidePart_get_ne pr.1 id s hidq).2
        · exact (showPart_get_ne pr.1 id s hidq).2
      exact ih (if pr.2 then hidePart pr.1 s else showPart pr.1 s)
        (List.nodup_cons.mp hnd).2 hmem2
        (by rw [hstep1]; exact hp) (by rw [hstep2]; exact hm)

theorem isolatePart_preIso (A : String) (s : PMState) :
    (isolatePart A s).preIsolationState
      = some (s.parts.map (fun pr => (pr.1, pr.2.isHidden))) := by
  simp only [isolatePart]
  refine foldl_pres
    (fun t => t.preIsolationState = some (s.parts.map (fun pr => (pr.1, pr.2.isHidden))))
    _ ?_ _ _ rfl
  intro t b ht
  dsimp only
  split
  · rw [hidePart_preIso]; exact ht
  · rw [showPart_preIso]; exact ht

/-- C7: `isolatePart(A)` snapshots every part's hidden flag, and
`showAllParts()` replays that snapshot: after the round trip every
registered part's `isHidden` flag equals its value immediately before the
isolation, and every mesh's visibility is the negation of its part's
restored flag. -/
theorem spec_c7_isolate_roundtrip (s : PMState) (A : String)
    (hnd : (s.parts.map Prod.fst).Nodup)
    (hk : s.partMeshes.map Prod.fst = s.parts.map Prod.fst) :
    (∀ id p', aget id (showAllParts (isolatePart A s)).parts = some p' →
      ∃ p, aget id s.parts = some p ∧ p'.isHidden = p.isHidden) ∧
    (∀ id m p', aget id (showAllParts (isolatePart A s)).partMeshes = some m →
      aget id (showAllParts (isolatePart A s)).parts = some p' →
      m.visible = !p'.isHidden) := by
  have hpre := isolatePart_preIso A s
  have hshow : showAllParts (isolatePart A s)
      = (s.parts.map (fun pr => (pr.1, pr.2.isHidden))).foldl
          (fun st pr => if pr.2 then hidePart pr.1 st else showPart pr.1 st)
          (isolatePart A s) := by
    simp only [showAllParts, hpre]
  have hsnapnd : ((s.parts.map (fun pr => (pr.1, pr.2.isHidden))).map Prod.fst).Nodup := by
    rw [List.map_map]
    exact hnd
  have hkeys1 : (isolatePart A s).parts.map Prod.fst = s.parts.map Prod.fst :=
    (frameEq_isolatePart A s).2.1
  have hkeys1m : (isolatePart A s).partMeshes.map Prod.fst = s.partMeshes.map Prod.fst :=
    (frameEq_isolatePart A s).2.2
  have hshowkeys : (showAllParts (isolatePart A s)).parts.map Prod.fst
      = s.parts.map Prod.fst :=
    ((frameEq_showAllParts _).2.1).trans hkeys1
  have core : ∀ id, id ∈ s.parts.map Prod.fst →
      ∃ p, aget id s.parts = some p ∧
        (aget id (showAllParts (isolatePart A s)).parts).map MPart.isHidden
          = some p.isHidden ∧
        (aget id (showAllParts (isolatePart A s)).partMeshes).map Mesh.visible
          = some (!p.isHidden) := by
    intro id hmem
    obtain ⟨p, hp⟩ := Option.isSome_iff_exists.mp ((aget_isSome_iff id s.parts).mpr hmem)
    refine ⟨p, hp, ?_⟩
    have hsnapmem : (id, p.isHidden) ∈ s.parts.map (fun pr => (pr.1, pr.2.isHidden)) :=
      List.mem_map.mpr ⟨(id, p), aget_mem hp, rfl⟩
    have hps1 : (aget id (isolatePart A s).parts).isSome = true := by
      rw [aget_isSome_iff, hkeys1]
      exact hmem
    have hms1 : (aget id (isolatePart A s).partMeshes).isSome = true := by
      rw [aget_isSome_iff, hkeys1m, hk]
      exact hmem
    have hfold := foldSnap_get_mem (s.parts.map (fun pr => (pr.1, pr.2.isHidden)))
      (isolatePart A s) id p.isHidden hsnapnd hsnapmem hps1 hms1
    rw [hshow]
    exact hfold
  constructor
  · intro id p' hp'
    have hmem : id ∈ s.parts.map Prod.fst := by
      rw [← hshowkeys]
      exact (aget_isSome_iff id _).mp (by rw [hp']; rfl)
    obtain ⟨p, hp, hcore1, -⟩ := core id hmem
    refine ⟨p, hp, ?_⟩
    rw [hp'] at hcore1
    exact Option.some.inj hcore1
  · intro id m p' hm' hp'
    have hmem : id ∈ s.parts.map Prod.fst := by
      rw [← hshowkeys]
      exact (aget_isSome_iff id _).mp (by rw [hp']; rfl)
    obtain ⟨p, hp, hcore1, hcore2⟩ := core id hmem
    rw [hp'] at hcore1
    rw [hm'] at hcore2
    have h1 := Option.some.inj hcore1
    have h2 := Option.some.inj hcore2
    rw [h2, h1]

theorem spec_c7_witness :
    (aget "P-002" (showAllParts (isolatePart "P-001" wit7)).parts).map MPart.isHidden
      = (aget "P-002" wit7.parts).map MPart.isHidden := by
  obtain ⟨p, hp, hih⟩ := (spec_c7_isolate_roundtrip wit7 "P-001" (by decide) (by decide)).1
    "P-002" wit7post (by decide)
  rw [show aget "P-002" (showAllParts (isolatePart "P-001" wit7)).parts = some wit7post
      from by decide, hp, Option.map_some', Option.map_some', hih]
